import Mathlib

/-!
Verification development for the bmail repository (an end-to-end encrypted
messaging overlay on top of the AT protocol).

The Rust sources are shallowly embedded below.  Conventions used throughout:

* Timestamps (chrono `DateTime<Utc>`) are modelled as `Nat` (nanoseconds since
  the epoch); only their ordering and equality matter to the program logic.
* UUIDs are modelled as `String`.
* Byte strings are modelled as `List Nat` with every entry `< 256` where the
  program produces genuine bytes.  String to byte conversion is modelled at
  Unicode-scalar granularity (`Char.toNat`), which is faithful for the ASCII
  data handled in all code paths under study.
* Fallible Rust code returns `Except BmailError` when it cannot panic and
  `Outcome` (which adds a `panicked` constructor for Rust panics such as
  `unwrap`, `expect` and debug-mode arithmetic overflow) when it can.
* The external `age` crate is modelled symbolically: a ciphertext records the
  recipient public keys and the payload, decryption succeeds exactly when the
  identity's derived public key is among the recipients, and the binary
  ciphertext format is a concrete injective length-prefixed encoding.  The
  external `base64` crate (standard alphabet, no padding) is implemented
  concretely.  The external `ciborium` serializer is a parameter (the source
  functions are generic over `T: Serialize`).
* Network and RNG effects are passed through an explicit `World` value, so
  every operation is a pure function of its inputs.
-/

/-- Error type modelling the variants of `BmailError` from `src/errors.rs`.
Error payloads coming from external library error types are dropped; the
`MissingRecipient` payload (the recipient identifier) is kept because the
program logic depends on it. -/
inductive BmailError where
  | internalServerError
  | firehoseProcessCrashed
  | conversationNotFound
  | malformedBmail
  | missingSession
  | missingIdentity
  | missingRecipientIdentity
  | missingRecipient (who : String)
  | multipleRecipientKeys
  | configError
  | serdeCborError
  | ioError
  | decryptError
  | encryptError
  | fromStringError
  | base64DecodeError
  | cborDecodeError
  | cborEncodeError
  | tokioSendError
  | streamError
  | biskyError
  | parseRecipientError
deriving DecidableEq, Repr

/-- Display strings of the `thiserror` attributes in `src/errors.rs`, as far
as they are needed by the UI status-line formatting in `send_bmail`. -/
def errString : BmailError → String
  | .internalServerError => "Internal Server Error"
  | .firehoseProcessCrashed => "Firehose Process Crashed"
  | .conversationNotFound => "Conversation Not Found"
  | .malformedBmail => "Malformed Bmail"
  | .missingSession => "Missing Session"
  | .missingIdentity => "Missing Identity"
  | .missingRecipientIdentity => "Missing Recipient Identity"
  | .missingRecipient who => "Missing Recipient " ++ who
  | .multipleRecipientKeys => "Missing Recipient Keys"
  | .configError => "Config Error"
  | .serdeCborError => "Serde Cbor Error"
  | .ioError => "Io Error"
  | .decryptError => "Decrypt Error"
  | .encryptError => "Encrypt Error"
  | .fromStringError => "From String Error"
  | .base64DecodeError => "Base64 Decode Error"
  | .cborDecodeError => "Cbor Decode Error"
  | .cborEncodeError => "Cbor Encode Error"
  | .tokioSendError => "Tokio Send Error"
  | .streamError => "Stream Error"
  | .biskyError => "Bisky Error"
  | .parseRecipientError => "Failed to Parse Recipient Key String"

/-- Result of running a piece of Rust code that may also panic (via `unwrap`,
`expect`, or debug-mode integer overflow). -/
inductive Outcome (α : Type) where
  | ok (a : α)
  | err (e : BmailError)
  | panicked (msg : String)
deriving DecidableEq, Repr

/-- Nat subtraction with Rust debug-build semantics: `a - b` panics when it
would underflow a `usize`. -/
def checkedSub (a b : Nat) : Except String Nat :=
  if b ≤ a then .ok (a - b) else .error "attempt to subtract with overflow"

/-- First-match association-list lookup, modelling `HashMap::get` /
`BTreeMap::get` (the embedded maps never hold duplicate keys). -/
def lookupA {κ ν : Type} [DecidableEq κ] : List (κ × ν) → κ → Option ν
  | [], _ => none
  | (k0, v0) :: t, k => if k0 = k then some v0 else lookupA t k

/-- Association-list insert modelling `HashMap::insert` / `BTreeMap::insert`:
replaces the value when the key is present, appends otherwise. -/
def insertA {κ ν : Type} [DecidableEq κ] : List (κ × ν) → κ → ν → List (κ × ν)
  | [], k, v => [(k, v)]
  | (k0, v0) :: t, k, v => if k0 = k then (k, v) :: t else (k0, v0) :: insertA t k v

/-- Character-list lexicographic comparison; the order Rust's `sort` uses on
`String` coincides with scalar-value order for the data in play. -/
def charsLe : List Char → List Char → Bool
  | [], _ => true
  | _ :: _, [] => false
  | a :: as, b :: bs =>
    if a.toNat < b.toNat then true
    else if b.toNat < a.toNat then false
    else charsLe as bs

/-- Lexicographic order on strings (Rust `str` ordering). -/
def strLeB (a b : String) : Bool := charsLe a.data b.data

/-- The sorted-order relation used for participant lists. -/
def strLe (a b : String) : Prop := strLeB a b = true

instance : DecidableRel strLe := fun _ _ => inferInstanceAs (Decidable (_ = true))

/-- Lexicographic sort of a string list, modelling `Vec::sort` on
`Vec<String>`. -/
def sortStrings (l : List String) : List String := List.insertionSort strLe l

/-- Rust `str::starts_with`, modelled on the character lists. -/
def strStartsWith (s pat : String) : Bool := pat.data.isPrefixOf s.data

/-- Worker for substring search (Rust `str::contains`); the first argument is
fuel bounded by the haystack length. -/
def containsGo (pat : List Char) : Nat → List Char → Bool
  | 0, _ => false
  | fuel+1, l =>
    pat.isPrefixOf l ||
      (match l with
       | [] => false
       | _ :: t => containsGo pat fuel t)

/-- Rust `str::contains` for a string pattern. -/
def strContains (s pat : String) : Bool := containsGo pat.data (s.data.length + 1) s.data

/-- Worker for `str::split` on a multi-character separator; fuel is bounded by
the haystack length. -/
def splitGo (sep : List Char) : Nat → List Char → List Char → List (List Char)
  | 0, l, acc => [acc ++ l]
  | fuel+1, l, acc =>
    match l with
    | [] => [acc]
    | c :: rest =>
      if sep.isPrefixOf (c :: rest) then
        acc :: splitGo sep fuel (List.drop sep.length (c :: rest)) []
      else
        splitGo sep fuel rest (acc ++ [c])

/-- Rust `str::split(sep).collect::<Vec<_>>()` for a non-empty string
separator. -/
def strSplitOn (s sep : String) : List String :=
  (splitGo sep.data (s.data.length + 1) s.data []).map String.mk

/-- Byte view of a string (`str::as_bytes`), at scalar-value granularity. -/
def strToBytes (s : String) : List Nat := s.data.map Char.toNat

/-- Validity test for turning a scalar value back into a `Char`. -/
def isValidCharNatB (n : Nat) : Bool := n < 55296 || (57343 < n && n < 1114112)

/-- Rust `String::from_utf8`, at scalar-value granularity: fails when a value
is not a valid Unicode scalar. -/
def bytesToString (bs : List Nat) : Option String :=
  if bs.all isValidCharNatB then some (String.mk (bs.map Char.ofNat)) else none

/-- Worker for the little-endian base-128 length encoding used by the symbolic
model of the age binary ciphertext format; the first argument is fuel bounded
below by the number being encoded. -/
def lebGo : Nat → Nat → List Nat
  | 0, n => [n]
  | fuel+1, n => if n < 128 then [n] else (n % 128 + 128) :: lebGo fuel (n / 128)

/-- Self-delimiting byte encoding of a natural number (LEB128 style). -/
def lebEncode (n : Nat) : List Nat := lebGo n n

/-- Decoder matching `lebEncode`; returns the number and the unread rest. -/
def lebDecode : List Nat → Option (Nat × List Nat)
  | [] => none
  | b :: rest =>
    if b < 128 then some (b, rest)
    else
      match lebDecode rest with
      | none => none
      | some (n, r) => some ((b - 128) + 128 * n, r)

/-- Concatenation of the encodings of the elements of a list. -/
def concatAll {α : Type} (f : α → List Nat) : List α → List Nat
  | [] => []
  | x :: xs => f x ++ concatAll f xs

/-- Byte encoding of a string inside the symbolic ciphertext format: a length
followed by the encodings of the scalar values. -/
def strEnc (s : String) : List Nat :=
  lebEncode s.data.length ++ concatAll (fun c => lebEncode c.toNat) s.data

/-- Read a run of `k` length-encoded naturals. -/
def readNats : Nat → List Nat → Option (List Nat × List Nat)
  | 0, bs => some ([], bs)
  | k+1, bs =>
    match lebDecode bs with
    | none => none
    | some (n, r) =>
      match readNats k r with
      | none => none
      | some (ns, r2) => some (n :: ns, r2)

/-- Read a run of `k` length-encoded characters. -/
def readChars : Nat → List Nat → Option (List Char × List Nat)
  | 0, bs => some ([], bs)
  | k+1, bs =>
    match lebDecode bs with
    | none => none
    | some (n, r) =>
      match readChars k r with
      | none => none
      | some (cs, r2) => some (Char.ofNat n :: cs, r2)

/-- Read one length-prefixed string. -/
def readStr (bs : List Nat) : Option (String × List Nat) :=
  match lebDecode bs with
  | none => none
  | some (n, r) =>
    match readChars n r with
    | none => none
    | some (cs, r2) => some (String.mk cs, r2)

/-- Read a run of `k` length-prefixed strings. -/
def readStrs : Nat → List Nat → Option (List String × List Nat)
  | 0, bs => some ([], bs)
  | k+1, bs =>
    match readStr bs with
    | none => none
    | some (s, r) =>
      match readStrs k r with
      | none => none
      | some (ss, r2) => some (s :: ss, r2)

/-- Symbolic model of an age X25519 identity (the long-term secret). -/
structure AgeIdentity where
  secret : String
deriving DecidableEq, Repr

/-- Derivation of the advertised public key from an identity
(`Identity::to_public`); injective by construction. -/
def AgeIdentity.toPublic (i : AgeIdentity) : String := "age-pub:" ++ i.secret

/-- Symbolic model of an age ciphertext: the recipient stanzas record the
recipient public keys, and the body carries the payload bytes. -/
structure AgeCiphertext where
  recipients : List String
  payload : List Nat
deriving DecidableEq, Repr

/-- Binary serialization of the symbolic ciphertext (stands in for the age
binary format written by `wrap_output` / `finish`). -/
def ctEncode (ct : AgeCiphertext) : List Nat :=
  lebEncode ct.recipients.length ++ concatAll strEnc ct.recipients ++
    lebEncode ct.payload.length ++ concatAll lebEncode ct.payload

/-- Binary parsing of the symbolic ciphertext (stands in for
`age::Decryptor::new`); fails on any byte stream that is not a serialized
ciphertext. -/
def ctDecode (bs : List Nat) : Option AgeCiphertext :=
  match lebDecode bs with
  | none => none
  | some (k, r1) =>
    match readStrs k r1 with
    | none => none
    | some (rs, r2) =>
      match lebDecode r2 with
      | none => none
      | some (m, r3) =>
        match readNats m r3 with
        | none => none
        | some (ps, r4) => if r4 = [] then some ⟨rs, ps⟩ else none

/-- Character table of the standard base64 alphabet. -/
def b64Char (n : Nat) : Char :=
  if n < 26 then Char.ofNat (65 + n)
  else if n < 52 then Char.ofNat (97 + (n - 26))
  else if n < 62 then Char.ofNat (48 + (n - 52))
  else if n = 62 then Char.ofNat 43
  else Char.ofNat 47

/-- Inverse of the standard base64 alphabet table. -/
def b64Index (c : Char) : Option Nat :=
  let n := c.toNat
  if 65 ≤ n ∧ n ≤ 90 then some (n - 65)
  else if 97 ≤ n ∧ n ≤ 122 then some (n - 97 + 26)
  else if 48 ≤ n ∧ n ≤ 57 then some (n - 48 + 52)
  else if n = 43 then some 62
  else if n = 47 then some 63
  else none

/-- Base64 encoding (standard alphabet, no padding) of a byte list, three
bytes to four characters, modelling `general_purpose::STANDARD_NO_PAD.encode`. -/
def b64EncodeBytes : List Nat → List Char
  | [] => []
  | [a] => [b64Char (a / 4), b64Char (a % 4 * 16)]
  | [a, b] => [b64Char (a / 4), b64Char (a % 4 * 16 + b / 16), b64Char (b % 16 * 4)]
  | a :: b :: c :: rest =>
    b64Char (a / 4) :: b64Char (a % 4 * 16 + b / 16) :: b64Char (b % 16 * 4 + c / 64) ::
      b64Char (c % 64) :: b64EncodeBytes rest

/-- Base64 decoding (standard alphabet, no padding, canonical trailing bits),
modelling `general_purpose::STANDARD_NO_PAD.decode`. -/
def b64DecodeChars : List Char → Option (List Nat)
  | [] => some []
  | [_] => none
  | [c1, c2] =>
    match b64Index c1, b64Index c2 with
    | some i1, some i2 => if i2 % 16 = 0 then some [i1 * 4 + i2 / 16] else none
    | _, _ => none
  | [c1, c2, c3] =>
    match b64Index c1, b64Index c2, b64Index c3 with
    | some i1, some i2, some i3 =>
      if i3 % 4 = 0 then some [i1 * 4 + i2 / 16, i2 % 16 * 16 + i3 / 4] else none
    | _, _, _ => none
  | c1 :: c2 :: c3 :: c4 :: rest =>
    match b64Index c1, b64Index c2, b64Index c3, b64Index c4 with
    | some i1, some i2, some i3, some i4 =>
      match b64DecodeChars rest with
      | none => none
      | some bs =>
        some ((i1 * 4 + i2 / 16) :: (i2 % 16 * 16 + i3 / 4) :: (i3 % 4 * 64 + i4) :: bs)
    | _, _, _, _ => none

/-- Base64 encode bytes into a `String` (the form stored in records). -/
def b64EncodeStr (bs : List Nat) : String := String.mk (b64EncodeBytes bs)

/-- Base64 decode a `String` into bytes. -/
def b64DecodeStr (s : String) : Option (List Nat) := b64DecodeChars s.data

/-- Symbolic model of `age::Encryptor` in recipients mode; it simply holds the
recipient public keys. -/
structure AgeEncryptor where
  recipients : List String
deriving DecidableEq, Repr

/-- Model of `age::Encryptor::with_recipients`, which returns `None` when the
recipient list is empty (the callers in `src/key.rs` and `src/message.rs`
unwrap this with `expect("we provided a recipient")`). -/
def AgeEncryptor.with_recipients (rs : List String) : Option AgeEncryptor :=
  if rs.isEmpty then none else some ⟨rs⟩

/-- Model of encrypting a payload with an `AgeEncryptor`
(`wrap_output` / `write_all` / `finish`). -/
def ageEncrypt (enc : AgeEncryptor) (payload : List Nat) : AgeCiphertext :=
  ⟨enc.recipients, payload⟩

/-- Model of `decryptor.decrypt(iter::once(identity))` followed by
`read_to_end`: succeeds exactly when the identity's public key is among the
recipient stanzas. -/
def ageDecrypt (i : AgeIdentity) (ct : AgeCiphertext) : Option (List Nat) :=
  if i.toPublic ∈ ct.recipients then some ct.payload else none

/-- Model of `encrypt_and_encode` from `src/key.rs`: CBOR-serialize the
payload, encrypt it to the recipient keys, base64-encode the binary
ciphertext.  The source is generic over `T: Serialize`, so the CBOR
serializer for the payload type is a parameter `ser`.  The recipient keys
are the public-key strings held by the `Box<dyn Recipient>` values. -/
def encrypt_and_encode {α : Type} (ser : α → List Nat) (recipients : List String)
    (payload : α) : Outcome String :=
  let cborBuffer := ser payload
  match AgeEncryptor.with_recipients recipients with
  | none => .panicked "we provided a recipient"
  | some encryptor => .ok (b64EncodeStr (ctEncode (ageEncrypt encryptor cborBuffer)))

/-- Model of `decrypt_and_decode` from `src/key.rs`: base64-decode, parse the
age ciphertext (`Decryptor::new`), decrypt with the single identity, then
CBOR-deserialize.  The CBOR deserializer for the payload type is the
parameter `de`. -/
def decrypt_and_decode {α : Type} (de : List Nat → Option α) (identity : AgeIdentity)
    (payload : String) : Outcome α :=
  match b64DecodeStr payload with
  | none => .err .base64DecodeError
  | some decoded =>
    match ctDecode decoded with
    | none => .err .decryptError
    | some ct =>
      match ageDecrypt identity ct with
      | none => .err .decryptError
      | some decrypted =>
        match de decrypted with
        | none => .err .cborDecodeError
        | some v => .ok v

/-- Message key from the specification data model: a `(created_at, count)`
pair; `count` disambiguates messages sharing a timestamp. -/
structure MessageKey where
  created_at : Nat
  count : Nat
deriving DecidableEq, Repr

/-- Decrypted message (`DecryptedMessage` in `src/message.rs`, including the
`creator_handle` field that the live snapshot in `src/ui.rs` constructs and
displays). -/
structure DecryptedMessage where
  created_at : Nat
  creator : String
  conversation_id : String
  message : String
  recipients : List String
  version : Nat
  creator_handle : String
deriving DecidableEq, Repr

/-- On-network message record (`BmailMessageRecord` in `src/message.rs`). -/
structure BmailMessageRecord where
  bmail_created_at : Nat
  bmail_conversation_id : String
  bmail_cipher_text : String
  bmail_type : String
  bmail_creator : String
  bmail_version : Nat
  bmail_recipients : List String
deriving DecidableEq, Repr

/-- A conversation (`Conversation` as used by the live code in `src/ui.rs`:
its `messages` map is keyed by `MessageKey` and it tracks
`recipient_active_time` per participant DID). -/
structure Conversation where
  conversation_id : String
  messages : List (MessageKey × DecryptedMessage)
  recipient_active_time : List (String × Nat)
  participants : List String
deriving DecidableEq, Repr

/-- Subject reference of a like record (`StrongRef`). -/
structure StrongRef where
  cid : String
  uri : String
deriving DecidableEq, Repr

/-- Notification like record (`BmailLike` as constructed in
`App::notify_recipients` in `src/ui.rs`, including its `bmail_type` field). -/
structure BmailLike where
  created_at : Nat
  subject : StrongRef
  bmail_recipients : List String
  bmail_conversation_id : String
  bmail_type : String
deriving DecidableEq, Repr

/-- Profile record overlay (`BmailEnabledProfile`); the `bmail_rc_map` field
used by the live `src/ui.rs` code is held in decoded form (the sorted
participant list to conversation-id directory), since `encode` / `decode`
(CBOR plus base64) round-trip on it. -/
structure BmailEnabledProfile where
  display_name : Option String
  bmail_pub_key : Option String
  bmail_notification_uri : Option String
  bmail_notification_cid : Option String
  bmail_rc_map : Option (List (List String × String))
deriving DecidableEq, Repr

/-- Modelled from the spec: worker loop of the collision-safe insert of
section 4.6.  The live `insert_with_collisions` imported by `src/ui.rs` is
absent from the `src/` snapshot (only a commented-out draft and the caller
`add_bmail_to_conversation` remain), so the loop is taken from the
specification pseudocode.  The fuel argument starts at one more than the map
size, which is enough probes to reach a free count or an equal entry. -/
def insertGo (msg : DecryptedMessage) :
    Nat → Nat → List (MessageKey × DecryptedMessage) → List (MessageKey × DecryptedMessage)
  | 0, _, m => m
  | fuel+1, count, m =>
    match lookupA m ⟨msg.created_at, count⟩ with
    | some existing => if existing = msg then m else insertGo msg fuel (count + 1) m
    | none => insertA m ⟨msg.created_at, count⟩ msg

/-- Modelled from the spec: `insert_with_collisions` (section 4.6).  Starting
at count 0: an equal entry at the probed key makes the insert a no-op, an
unequal entry bumps the count, a free key receives the message. -/
def insert_with_collisions (m : List (MessageKey × DecryptedMessage))
    (msg : DecryptedMessage) : List (MessageKey × DecryptedMessage) :=
  insertGo msg (m.length + 1) 0 m

/-- Model of `BmailMessageRecord::into_decrypted_message` from
`src/message.rs`: base64-decode the cipher text, parse and decrypt with the
local identity, decode the plaintext bytes as UTF-8.  The `creator_handle`
field (present only in the newer snapshot of the struct) is filled from the
`creator` argument. -/
def into_decrypted_message (rec : BmailMessageRecord) (creator : String)
    (identity : AgeIdentity) : Outcome DecryptedMessage :=
  match b64DecodeStr rec.bmail_cipher_text with
  | none => .err .base64DecodeError
  | some decoded =>
    match ctDecode decoded with
    | none => .err .decryptError
    | some ct =>
      match ageDecrypt identity ct with
      | none => .err .decryptError
      | some decrypted =>
        match bytesToString decrypted with
        | none => .err .fromStringError
        | some s =>
          .ok { created_at := rec.bmail_created_at, creator := creator,
                conversation_id := rec.bmail_conversation_id, message := s,
                recipients := rec.bmail_recipients, version := rec.bmail_version,
                creator_handle := creator }

/-- The world: read access to the network (handle resolution, profile
records, per-repo profile-collection record listings), the stores mutated by
publishing (message records and like records), the UUID source and the clock.
All effects of the embedded operations thread through this value. -/
structure World where
  resolve : String → Option String
  profiles : String → Option BmailEnabledProfile
  bmailRecords : String → List BmailMessageRecord
  likes : List BmailLike
  uuidSource : Nat → String
  uuidCounter : Nat
  now : Nat

/-- The portion of `App` state (from `src/ui.rs`) that the embedded
operations read and write.  `handle` is `conf.user.handle`. -/
structure AppState where
  handle : String
  identity : AgeIdentity
  user_did : Option String
  status : String
  current_conversation_id : Option String
  conversations : List (String × Conversation)
  recipients_conversation_map : List (List String × String)
  conversation_state : Option Nat

/-- Resolution loop shared by `load_conversation` and `send_bmail`: resolve
each handle in order, failing on the first resolver error (the `?` on
`resolve_handle`). -/
def resolveList (res : String → Option String) : List String → Except BmailError (List String)
  | [] => .ok []
  | h :: t =>
    match res h with
    | none => .error .biskyError
    | some d =>
      match resolveList res t with
      | .error e => .error e
      | .ok ds => .ok (d :: ds)

/-- Participant canonicalization performed by `App::load_conversation` in
`src/ui.rs`: push the local handle onto the list, resolve every handle to a
DID, and sort.  (No deduplication is performed.) -/
def canonicalDids (w : World) (handle : String) (recipients : List String) :
    Except BmailError (List String) :=
  match resolveList w.resolve (recipients ++ [handle]) with
  | .error e => .error e
  | .ok dids => .ok (sortStrings dids)

/-- Modelled from the spec (section 4.5 step 1): the canonicalization the
specification describes, for comparison with `canonicalDids` — resolve each
handle, append the local DID, sort lexicographically, deduplicate. -/
def canonicalDidsSpec (w : World) (localDid : String) (recipients : List String) :
    Except BmailError (List String) :=
  match resolveList w.resolve recipients with
  | .error e => .error e
  | .ok dids => .ok (sortStrings (dids ++ [localDid])).dedup

/-- Model of `App::get_rc_map_from_profile`: fetch the target's profile
record and return its decoded `bmail_rc_map`. -/
def get_rc_map_from_profile (w : World) (target : String) :
    Except BmailError (Option (List (List String × String))) :=
  match w.profiles target with
  | none => .error .biskyError
  | some p => .ok p.bmail_rc_map

/-- Model of `App::get_cid_from_rc_map_from_profile`: look the sorted
participant list up in the local user's own profile directory. -/
def get_cid_from_rc_map_from_profile (w : World) (handle : String)
    (participants : List String) : Except BmailError (Option String) :=
  match get_rc_map_from_profile w handle with
  | .error e => .error e
  | .ok none => .ok none
  | .ok (some m) => .ok (lookupA m participants)

/-- Model of `App::get_cid_from_rc_map_from_participants_profiles`: scan the
participants (skipping the local DID when known), returning the first
directory hit; a fetch error aborts the whole scan (the `?` inside the
loop). -/
def peerScan (w : World) (user_did : Option String) (participants : List String) :
    List String → Except BmailError (Option String)
  | [] => .ok none
  | p :: rest =>
    if user_did = some p then peerScan w user_did participants rest
    else
      match w.profiles p with
      | none => .error .biskyError
      | some prof =>
        match prof.bmail_rc_map with
        | none => peerScan w user_did participants rest
        | some m =>
          match lookupA m participants with
          | some cid => .ok (some cid)
          | none => peerScan w user_did participants rest

/-- Model of `App::upload_rc_map_to_profile`: fetch the own profile record,
insert the entry into its (possibly absent) directory, and put the record
back. -/
def upload_rc_map_to_profile (w : World) (handle : String) (key : List String)
    (value : String) : Except BmailError World :=
  match w.profiles handle with
  | none => .error .biskyError
  | some p =>
    let newMap := insertA (p.bmail_rc_map.getD []) key value
    .ok { w with
          profiles := fun k =>
            if k = handle then some { p with bmail_rc_map := some newMap }
            else w.profiles k }

/-- Modelled from the spec (section 4.5 step 6): one participant's backfill
inside `Conversation::update_with_messages_from_participants` (the function
itself is absent from the `src/` snapshot; only its call site in
`load_conversation` remains).  List the participant's profile records, keep
the `bmail` records of this conversation newer than the recipient's
high-water mark, decrypt each with the local identity (failures are logged
and skipped), insert via the collision-safe insert, and update the high-water
mark to the maximum observed timestamp. -/
def backfillOne (w : World) (identity : AgeIdentity) (c : Conversation)
    (did : String) : Conversation :=
  let relevant := (w.bmailRecords did).filter fun r =>
    r.bmail_type = "bmail" ∧ r.bmail_conversation_id = c.conversation_id
  let cutoff := lookupA c.recipient_active_time did
  let fresh := relevant.filter fun r =>
    match cutoff with
    | some t => t < r.bmail_created_at
    | none => true
  let msgs := fresh.filterMap fun r =>
    match into_decrypted_message r r.bmail_creator identity with
    | .ok m => some m
    | _ => none
  let newMessages := msgs.foldl insert_with_collisions c.messages
  let maxT := fresh.foldl (fun a r => max a r.bmail_created_at) ((cutoff).getD 0)
  { c with
    messages := newMessages,
    recipient_active_time :=
      if fresh.isEmpty then c.recipient_active_time
      else insertA c.recipient_active_time did maxT }

/-- Modelled from the spec (section 4.5 step 6): backfill across every
participant. -/
def update_with_messages_from_participants (w : World) (identity : AgeIdentity)
    (c : Conversation) (dids : List String) : Conversation :=
  dids.foldl (backfillOne w identity) c

/-- Step 4 of `App::load_conversation`: ensure the conversation entry exists
(`entry(...).or_insert_with`), backfill it from every participant, and reset
the conversation list state; returns the id the method returns
(`current_conversation_id.unwrap()`). -/
def finishLoad (w : World) (app : AppState) (dids : List String) :
    Outcome String × AppState × World :=
  match app.current_conversation_id with
  | none => (.panicked "called Option::unwrap() on a None value", app, w)
  | some cid =>
    let conversations1 :=
      match lookupA app.conversations cid with
      | some _ => app.conversations
      | none =>
        insertA app.conversations cid
          { conversation_id := cid, messages := [], recipient_active_time := [],
            participants := dids }
    match lookupA conversations1 cid with
    | none => (.ok cid, { app with conversations := conversations1 }, w)
    | some conv =>
      let conv2 := update_with_messages_from_participants w app.identity conv dids
      (.ok cid,
        { app with
          conversations := insertA conversations1 cid conv2,
          conversation_state := none },
        w)

/-- Shared body of the three adopting branches of `App::load_conversation`:
set the current conversation id, register the id in the in-memory directory,
create an empty conversation shell, and upload the directory entry to the own
profile (whose failure aborts the load, after the in-memory mutations). -/
def adoptConversation (w : World) (app : AppState) (dids : List String) (cid : String) :
    Except BmailError Unit × AppState × World :=
  let app2 :=
    { app with
      current_conversation_id := some cid,
      recipients_conversation_map := insertA app.recipients_conversation_map dids cid,
      conversations :=
        insertA app.conversations cid
          { conversation_id := cid, messages := [], recipient_active_time := [],
            participants := dids } }
  match upload_rc_map_to_profile w app2.handle dids cid with
  | .error e => (.error e, app2, w)
  | .ok w2 => (.ok (), app2, w2)

/-- Core of `App::load_conversation` after canonicalization: the in-memory
directory lookup, the self-profile directory lookup (errors fall through to
the next branch, per the `if let Ok(Some(..))` pattern), the peer-profile
scan, the fresh-UUID branch, and the final backfill step. -/
def loadConversationWithDids (w : World) (app : AppState) (dids : List String) :
    Outcome String × AppState × World :=
  match lookupA app.recipients_conversation_map dids with
  | some cid => finishLoad w { app with current_conversation_id := some cid } dids
  | none =>
    match get_cid_from_rc_map_from_profile w app.handle dids with
    | .ok (some cid) =>
      match adoptConversation w app dids cid with
      | (.error e, app2, w2) => (.err e, app2, w2)
      | (.ok _, app2, w2) => finishLoad w2 app2 dids
    | _ =>
      match peerScan w app.user_did dids dids with
      | .ok (some cid) =>
        match adoptConversation w app dids cid with
        | (.error e, app2, w2) => (.err e, app2, w2)
        | (.ok _, app2, w2) => finishLoad w2 app2 dids
      | _ =>
        let cid := w.uuidSource w.uuidCounter
        let w1 := { w with uuidCounter := w.uuidCounter + 1 }
        match adoptConversation w1 app dids cid with
        | (.error e, app2, w2) => (.err e, app2, w2)
        | (.ok _, app2, w2) => finishLoad w2 app2 dids

/-- Model of `App::load_conversation` from `src/ui.rs`. -/
def loadConversation (w : World) (app : AppState) (recipients : List String) :
    Outcome String × AppState × World :=
  match canonicalDids w app.handle recipients with
  | .error e => (.err e, app, w)
  | .ok dids => loadConversationWithDids w app dids

/-- Model of `get_recipient_for_bskyer` (`src/key.rs`): fetch the profile of
`who` and return the advertised public key (if any) together with the
profile.  Key-string parsing (`Recipient::from_str`) always succeeds in the
symbolic key model, so `ParseRecipientError` is unreachable here. -/
def get_recipient_for_bskyer (w : World) (who : String) :
    Except BmailError (Option String × BmailEnabledProfile) :=
  match w.profiles who with
  | none => .error .biskyError
  | some p => .ok (p.bmail_pub_key, p)

/-- The recipient-key collection loop of
`DecryptedMessage::into_bmail_record` (`src/message.rs`): for each recipient
fetch the profile, fail with `MissingRecipient` on the first recipient whose
profile advertises no `bmail_pub_key`. -/
def collectRecipientKeys (w : World) : List String → Except BmailError (List String)
  | [] => .ok []
  | r :: rest =>
    match get_recipient_for_bskyer w r with
    | .error e => .error e
    | .ok (none, _) => .error (.missingRecipient r)
    | .ok (some key, _) =>
      match collectRecipientKeys w rest with
      | .error e => .error e
      | .ok keys => .ok (key :: keys)

/-- Model of `DecryptedMessage::into_bmail_record` (`src/message.rs`):
collect the recipient keys, build the encryptor (`with_recipients` unwrapped
with `expect("we provided a recipient")`, hence a panic on an empty key
list), encrypt the message bytes, base64-encode, and assemble the record. -/
def into_bmail_record (w : World) (m : DecryptedMessage) : Outcome BmailMessageRecord :=
  match collectRecipientKeys w m.recipients with
  | .error e => .err e
  | .ok keys =>
    match AgeEncryptor.with_recipients keys with
    | none => .panicked "we provided a recipient"
    | some encryptor =>
      .ok { bmail_created_at := m.created_at,
            bmail_conversation_id := m.conversation_id,
            bmail_cipher_text := b64EncodeStr (ctEncode (ageEncrypt encryptor (strToBytes m.message))),
            bmail_type := "bmail",
            bmail_creator := m.creator,
            bmail_version := m.version,
            bmail_recipients := m.recipients }

/-- Publishing a message record (`me.create_record("app.bsky.actor.profile", ..)`
in `App::send_bmail`): append the record to the repo of `who`. -/
def publishBmailRecord (w : World) (who : String) (r : BmailMessageRecord) : World :=
  { w with
    bmailRecords := fun k =>
      if k = who then w.bmailRecords k ++ [r] else w.bmailRecords k }

/-- Model of `App::add_bmail_to_conversation` (`src/ui.rs`): insert the
message into the conversation via the collision-safe insert and select the
newest entry in the list state; `ConversationNotFound` when the conversation
id is unknown. -/
def add_bmail_to_conversation (app : AppState) (conv_id : String)
    (msg : DecryptedMessage) : Except BmailError AppState :=
  match lookupA app.conversations conv_id with
  | none => .error .conversationNotFound
  | some c =>
    let newMessages := insert_with_collisions c.messages msg
    .ok { app with
          conversations := insertA app.conversations conv_id { c with messages := newMessages },
          conversation_state := some (newMessages.length - 1) }

/-- Loop body of `App::notify_recipients` (`src/ui.rs`): for each recipient
handle fetch the profile, read the sentinel-post reference
(`MalformedBmail` when absent), and create a like record.  Both the profile
fetch and the record creation propagate their error with `?`, aborting the
remaining notifications. -/
def notifyGo (conversation_id : String) (allRecipients : List String) :
    World → List String → Except BmailError Unit × World
  | w, [] => (.ok (), w)
  | w, r :: rest =>
    match get_recipient_for_bskyer w r with
    | .error e => (.error e, w)
    | .ok (_, profile) =>
      match profile.bmail_notification_cid with
      | none => (.error .malformedBmail, w)
      | some ncid =>
        match profile.bmail_notification_uri with
        | none => (.error .malformedBmail, w)
        | some nuri =>
          let like : BmailLike :=
            { created_at := w.now,
              subject := { cid := ncid, uri := nuri },
              bmail_recipients := allRecipients,
              bmail_conversation_id := conversation_id,
              bmail_type := "notification" }
          notifyGo conversation_id allRecipients { w with likes := w.likes ++ [like] } rest

/-- Model of `App::notify_recipients` (`src/ui.rs`). -/
def notify_recipients (w : World) (conversation_id : String)
    (recipients : List String) : Except BmailError Unit × World :=
  notifyGo conversation_id recipients w recipients

/-- Model of `App::send_bmail` (`src/ui.rs`): resolve the recipient handles
and sort the DIDs (note: the local DID is not appended, and the resolved set
is never compared with the conversation's stored participants), build the
decrypted message, encrypt it into a record, publish the record into the own
profile collection, insert the message locally (failures set the status line
only), then notify every recipient (failures propagate via `?`). -/
def send_bmail (w : World) (app : AppState) (conversation_id : String)
    (recipients : List String) (msg : String) : Outcome Unit × AppState × World :=
  match app.user_did with
  | none => (.err .internalServerError, app, w)
  | some user_did =>
    match resolveList w.resolve recipients with
    | .error e => (.err e, app, w)
    | .ok ds =>
      let participant_dids := sortStrings ds
      let m : DecryptedMessage :=
        { created_at := w.now, creator := user_did, conversation_id := conversation_id,
          message := msg, recipients := participant_dids, version := 0,
          creator_handle := app.handle }
      match into_bmail_record w m with
      | .err e => (.err e, app, w)
      | .panicked s => (.panicked s, app, w)
      | .ok record =>
        let w1 := publishBmailRecord w app.handle record
        let app1 :=
          match add_bmail_to_conversation app conversation_id m with
          | .ok a => a
          | .error .conversationNotFound => { app with status := "Failed to find conversation" }
          | .error e => { app with status := "Unexpected_error: " ++ errString e }
        match notify_recipients w1 conversation_id recipients with
        | (.error e, w2) => (.err e, app1, w2)
        | (.ok _, w2) => (.ok (), app1, w2)

/-- Model of the `KeyCode::Up` arm of the `ScrollingMessages` mode in
`run_app` (`src/ui.rs`): with a selection at 0 it wraps to
`messages.len() - 1` (an unchecked `usize` subtraction preceded by an
`unwrap` of the conversation lookup); otherwise it decrements; with no
selection it selects 0. -/
def scroll_up (app : AppState) : Except String AppState :=
  match app.current_conversation_id with
  | none => .ok app
  | some cid =>
    match app.conversation_state with
    | none => .ok { app with conversation_state := some 0 }
    | some i =>
      if i = 0 then
        match lookupA app.conversations cid with
        | none => .error "called Option::unwrap() on a None value"
        | some c =>
          match checkedSub c.messages.length 1 with
          | .error msg => .error msg
          | .ok j => .ok { app with conversation_state := some j }
      else .ok { app with conversation_state := some (i - 1) }

/-- Model of the `KeyCode::Down` arm of the `ScrollingMessages` mode in
`run_app` (`src/ui.rs`): with a selection it compares against
`messages.len() - 1` (unchecked `usize` subtraction after an `unwrap` of the
conversation lookup), wrapping to 0 at the end; with no selection it selects
0. -/
def scroll_down (app : AppState) : Except String AppState :=
  match app.current_conversation_id with
  | none => .ok app
  | some cid =>
    match app.conversation_state with
    | none => .ok { app with conversation_state := some 0 }
    | some i =>
      match lookupA app.conversations cid with
      | none => .error "called Option::unwrap() on a None value"
      | some c =>
        match checkedSub c.messages.length 1 with
        | .error msg => .error msg
        | .ok lastIndex =>
          .ok { app with conversation_state := some (if lastIndex ≤ i then 0 else i + 1) }

/-- A parsed firehose feed post (`FirehosePost`): the fields `process_message`
in `src/main.rs` reads. -/
structure FirehosePost where
  text : String
  created_at : Nat
deriving DecidableEq, Repr

/-- One commit operation of a firehose frame (path and content id; content
ids are abstract numbers). -/
structure FirehoseOperation where
  path : String
  cid : Option Nat
deriving DecidableEq, Repr

/-- A decoded firehose commit: its operations, its CAR block store (content
id to parsed record; `None` models both a missing block and a record that
fails to parse, which the source unwraps), and the repo DID. -/
structure FirehoseCommit where
  operations : List FirehoseOperation
  blocks : Nat → Option FirehosePost
  repo : String

/-- A decoded firehose frame body (`FirehoseBody`): a commit or anything
else. -/
inductive FirehoseBody where
  | commit (c : FirehoseCommit)
  | other

/-- The channel message struct built by `process_message` in `src/main.rs`
(its definition is from an older `message.rs` absent from the snapshot; the
fields are reconstructed from the construction site, including the handle
being stored into `sender_did`). -/
structure BMessage where
  command : String
  recipient_did : String
  sender_did : String
  created_at : Nat
  raw_message : String
  message : Option String
deriving DecidableEq, Repr

/-- Read access `process_message` needs beyond the frame itself:
`get_profile_other` (DID to profile handle; unwrapped with `expect`). -/
structure FirehoseEnv where
  profileHandle : String → Option String

/-- Model of one iteration of `process_message` from `src/main.rs` on a
decoded frame body: keep only commits with operations whose first operation
path starts with `app.bsky.feed.post/` and carries a content id; read and
parse the block (unwrap panics on failure); keep only posts whose text starts
with `/dm` and mentions `@` plus the local handle; split on `::` into
command, recipient and message segments (other shapes are dropped as
malformed); age-decrypt the message segment with the local identity and
UTF-8-decode it (both failures abort `process_message` with an error); emit
the resulting message on the channel. -/
def processFrame (handle : String) (identity : AgeIdentity) (env : FirehoseEnv)
    (body : FirehoseBody) : Outcome (Option BMessage) :=
  match body with
  | .other => .ok none
  | .commit commit =>
    match commit.operations with
    | [] => .ok none
    | operation :: _ =>
      if strStartsWith operation.path "app.bsky.feed.post/" then
        match operation.cid with
        | none => .ok none
        | some cid =>
          match commit.blocks cid with
          | none => .panicked "called Option::unwrap() on a None value"
          | some post =>
            if strStartsWith post.text "/dm" then
              if strContains post.text ("@" ++ handle) then
                match env.profileHandle commit.repo with
                | none => .panicked "Failed to get profile for known user!"
                | some sender_handle =>
                  match strSplitOn post.text "::" with
                  | [command, recipient, message] =>
                    match ctDecode (strToBytes message) with
                    | none => .err .decryptError
                    | some ct =>
                      match ageDecrypt identity ct with
                      | none => .err .decryptError
                      | some decrypted =>
                        match bytesToString decrypted with
                        | none => .err .fromStringError
                        | some plain =>
                          .ok (some { command := command, recipient_did := recipient,
                                      sender_did := sender_handle,
                                      created_at := post.created_at,
                                      raw_message := message, message := some plain })
                  | _ => .ok none
              else .ok none
            else .ok none
      else .ok none

/-- Lookup of a key in the decoded `bmail_rc_map` of the stored profile of
`handle` (the observation C5 is about). -/
def rcLookup (w : World) (handle : String) (key : List String) : Option String :=
  match w.profiles handle with
  | none => none
  | some p =>
    match p.bmail_rc_map with
    | none => none
    | some m => lookupA m key

/-- A profile with no bmail overlay fields. -/
def emptyProfile : BmailEnabledProfile :=
  { display_name := none, bmail_pub_key := none, bmail_notification_uri := none,
    bmail_notification_cid := none, bmail_rc_map := none }

/-- Concrete message for the C1 witness. -/
def msgW1 : DecryptedMessage :=
  { created_at := 5, creator := "did:a", conversation_id := "c1", message := "x",
    recipients := ["did:a"], version := 0, creator_handle := "a" }

/-- Concrete message for the C1 witness: same timestamp as `msgW1`, different
plaintext. -/
def msgW2 : DecryptedMessage := { msgW1 with message := "y" }

/-- Identity used by the C3 counterexample. -/
def identC3 : AgeIdentity := ⟨"k3"⟩

/-- Ciphertext sealed to the C3 identity carrying the plaintext `hi`. -/
def ctC3 : AgeCiphertext := ⟨["age-pub:k3"], strToBytes "hi"⟩

/-- The serialized C3 ciphertext transported inside the post text. -/
def segC3 : String := String.mk ((ctEncode ctC3).map Char.ofNat)

/-- Post text of the C3 counterexample frame: a `/dm` mentioning `@me`. -/
def textC3 : String := "/dm::@me::" ++ segC3

/-- The C3 counterexample commit: its only operation lives under
`app.bsky.feed.post/`, not under `actor.profile/`. -/
def commitC3 : FirehoseCommit :=
  { operations := [{ path := "app.bsky.feed.post/3abc", cid := some 7 }],
    blocks := fun n => if n = 7 then some { text := textC3, created_at := 99 } else none,
    repo := "did:alice" }

/-- Network environment of the C3 counterexample. -/
def envC3 : FirehoseEnv := ⟨fun d => if d = "did:alice" then some "alice" else none⟩

/-- The message the C3 counterexample frame produces on the channel. -/
def msgC3 : BMessage :=
  { command := "/dm", recipient_did := "@me", sender_did := "alice", created_at := 99,
    raw_message := segC3, message := some "hi" }

/-- World for the C4 counterexample. -/
def worldC4 : World :=
  { resolve := fun h => if h = "bob" then some "did:bob"
      else if h = "me" then some "did:me" else none,
    profiles := fun _ => none, bmailRecords := fun _ => [], likes := [],
    uuidSource := fun _ => "uuid-0", uuidCounter := 0, now := 0 }

/-- World for the C4 witness. -/
def worldC4b : World :=
  { resolve := fun h => if h = "a" then some "did:a"
      else if h = "b" then some "did:b"
      else if h = "me" then some "did:me" else none,
    profiles := fun k => if k = "me" then some emptyProfile else none,
    bmailRecords := fun _ => [], likes := [],
    uuidSource := fun _ => "uuid-4", uuidCounter := 0, now := 0 }

/-- App state for the C4 witness. -/
def appC4 : AppState :=
  { handle := "me", identity := ⟨"k4"⟩, user_did := some "did:me", status := "",
    current_conversation_id := none, conversations := [],
    recipients_conversation_map := [], conversation_state := none }

/-- Profile for the C5 witness. -/
def profileC5 : BmailEnabledProfile :=
  { display_name := none, bmail_pub_key := some "age-pub:k5",
    bmail_notification_uri := none, bmail_notification_cid := none, bmail_rc_map := none }

/-- World for the C5 witness. -/
def worldC5 : World :=
  { resolve := fun h => if h = "bob" then some "did:bob"
      else if h = "me" then some "did:me" else none,
    profiles := fun k => if k = "me" then some profileC5
      else if k = "did:bob" then some profileC5 else none,
    bmailRecords := fun _ => [], likes := [],
    uuidSource := fun _ => "uuid-5", uuidCounter := 0, now := 0 }

/-- App state for the C5 witness. -/
def appC5 : AppState :=
  { handle := "me", identity := ⟨"k5"⟩, user_did := some "did:me", status := "",
    current_conversation_id := none, conversations := [],
    recipients_conversation_map := [], conversation_state := none }

/-- World for the C5 counterexample: no profile record exists anywhere, so
the directory upload inside the adopting branch fails after the in-memory
insert has already happened. -/
def worldC5b : World :=
  { resolve := fun h => if h = "bob" then some "did:bob"
      else if h = "me" then some "did:me" else none,
    profiles := fun _ => none,
    bmailRecords := fun _ => [], likes := [],
    uuidSource := fun _ => "uuid-5b", uuidCounter := 0, now := 0 }

/-- App state for the C5 counterexample. -/
def appC5b : AppState :=
  { handle := "me", identity := ⟨"k5b"⟩, user_did := some "did:me", status := "",
    current_conversation_id := none, conversations := [],
    recipients_conversation_map := [], conversation_state := none }

/-- Stored conversation of the C6 counterexample (participants
`did:alice`, `did:me`). -/
def convC6 : Conversation :=
  { conversation_id := "cid-6", messages := [], recipient_active_time := [],
    participants := ["did:alice", "did:me"] }

/-- Profile of bob in the C6 counterexample (key and sentinel present). -/
def profileC6bob : BmailEnabledProfile :=
  { display_name := none, bmail_pub_key := some "age-pub:bob",
    bmail_notification_uri := some "uri-bob", bmail_notification_cid := some "nc-bob",
    bmail_rc_map := none }

/-- World of the C6 counterexample. -/
def worldC6 : World :=
  { resolve := fun h => if h = "bob" then some "did:bob" else none,
    profiles := fun k => if k = "did:bob" ∨ k = "bob" then some profileC6bob else none,
    bmailRecords := fun _ => [], likes := [],
    uuidSource := fun _ => "u", uuidCounter := 0, now := 50 }

/-- App state of the C6 counterexample. -/
def appC6 : AppState :=
  { handle := "me", identity := ⟨"k6"⟩, user_did := some "did:me", status := "ALL GOOD",
    current_conversation_id := some "cid-6", conversations := [("cid-6", convC6)],
    recipients_conversation_map := [], conversation_state := none }

/-- The record `send_bmail` publishes in the C6 scenario. -/
def recordC6 : BmailMessageRecord :=
  { bmail_created_at := 50, bmail_conversation_id := "cid-6",
    bmail_cipher_text := b64EncodeStr (ctEncode ⟨["age-pub:bob"], strToBytes "hi"⟩),
    bmail_type := "bmail", bmail_creator := "did:me", bmail_version := 0,
    bmail_recipients := ["did:bob"] }

/-- Keyless profile of carol in the C7 witness. -/
def profileC7carol : BmailEnabledProfile :=
  { display_name := none, bmail_pub_key := none, bmail_notification_uri := some "uri-carol",
    bmail_notification_cid := some "nc-carol", bmail_rc_map := none }

/-- World of the C7 witness. -/
def worldC7 : World :=
  { resolve := fun h => if h = "carol" then some "did:carol" else none,
    profiles := fun k => if k = "did:carol" ∨ k = "carol" then some profileC7carol else none,
    bmailRecords := fun _ => [], likes := [],
    uuidSource := fun _ => "u", uuidCounter := 0, now := 70 }

/-- App state of the C7 witness. -/
def appC7 : AppState :=
  { handle := "me", identity := ⟨"k7"⟩, user_did := some "did:me", status := "",
    current_conversation_id := some "cid-7", conversations := [],
    recipients_conversation_map := [], conversation_state := none }

/-- Profile of bob in the C8 counterexample: bmail key present, but the
sentinel-post content id is missing, so notifying bob fails with
`MalformedBmail`. -/
def profileC8bob : BmailEnabledProfile :=
  { display_name := none, bmail_pub_key := some "age-pub:bob8",
    bmail_notification_uri := some "uri-bob8", bmail_notification_cid := none,
    bmail_rc_map := none }

/-- Profile of carol in the C8 counterexample (fully provisioned). -/
def profileC8carol : BmailEnabledProfile :=
  { display_name := none, bmail_pub_key := some "age-pub:carol8",
    bmail_notification_uri := some "uri-carol8", bmail_notification_cid := some "nc-carol8",
    bmail_rc_map := none }

/-- Stored conversation of the C8 counterexample. -/
def convC8 : Conversation :=
  { conversation_id := "cid-8", messages := [], recipient_active_time := [],
    participants := ["did:bob", "did:carol", "did:me"] }

/-- World of the C8 counterexample. -/
def worldC8 : World :=
  { resolve := fun h => if h = "bob" then some "did:bob"
      else if h = "carol" then some "did:carol" else none,
    profiles := fun k => if k = "did:bob" ∨ k = "bob" then some profileC8bob
      else if k = "did:carol" ∨ k = "carol" then some profileC8carol else none,
    bmailRecords := fun _ => [], likes := [],
    uuidSource := fun _ => "u", uuidCounter := 0, now := 80 }

/-- App state of the C8 counterexample. -/
def appC8 : AppState :=
  { handle := "me", identity := ⟨"k8"⟩, user_did := some "did:me", status := "",
    current_conversation_id := some "cid-8", conversations := [("cid-8", convC8)],
    recipients_conversation_map := [], conversation_state := none }

/-- The record `send_bmail` publishes in the C8 scenario before the failing
notification. -/
def recordC8 : BmailMessageRecord :=
  { bmail_created_at := 80, bmail_conversation_id := "cid-8",
    bmail_cipher_text :=
      b64EncodeStr (ctEncode ⟨["age-pub:bob8", "age-pub:carol8"], strToBytes "yo"⟩),
    bmail_type := "bmail", bmail_creator := "did:me", bmail_version := 0,
    bmail_recipients := ["did:bob", "did:carol"] }

/-- Conversation of the C10 witness: one message. -/
def convC10 : Conversation :=
  { conversation_id := "cid-10", messages := [(⟨5, 0⟩, msgW1)],
    recipient_active_time := [], participants := ["did:a", "did:me"] }

/-- App state of the C10 witness: scrolling with the single message
selected. -/
def appC10 : AppState :=
  { handle := "me", identity := ⟨"k10"⟩, user_did := some "did:me", status := "",
    current_conversation_id := some "cid-10", conversations := [("cid-10", convC10)],
    recipients_conversation_map := [], conversation_state := some 0 }

theorem lookupA_insertA_self {κ ν : Type} [DecidableEq κ] (m : List (κ × ν)) (k : κ) (v : ν) :
    lookupA (insertA m k v) k = some v := by
  induction m with
  | nil => simp [insertA, lookupA]
  | cons hd t ih =>
    obtain ⟨k0, v0⟩ := hd
    by_cases h : k0 = k
    · simp [insertA, h, lookupA]
    · simp [insertA, h, lookupA, ih]

theorem lookupA_insertA_other {κ ν : Type} [DecidableEq κ] (m : List (κ × ν)) (k k' : κ) (v : ν)
    (hne : k' ≠ k) : lookupA (insertA m k v) k' = lookupA m k' := by
  induction m with
  | nil =>
    simp only [insertA, lookupA]
    rw [if_neg (fun h => hne h.symm)]
  | cons hd t ih =>
    obtain ⟨k0, v0⟩ := hd
    by_cases h : k0 = k
    · subst h
      simp only [insertA, if_pos rfl, lookupA]
      rw [if_neg (fun h => hne h.symm), if_neg (fun h => hne h.symm)]
    · simp only [insertA, if_neg h, lookupA]
      by_cases h2 : k0 = k'
      · rw [if_pos h2, if_pos h2]
      · rw [if_neg h2, if_neg h2]
        exact ih

theorem charsLe_total (a b : List Char) : charsLe a b = true ∨ charsLe b a = true := by
  induction a generalizing b with
  | nil => left; rfl
  | cons x xs ih =>
    cases b with
    | nil => right; rfl
    | cons y ys =>
      by_cases h1 : x.toNat < y.toNat
      · left; simp [charsLe, h1]
      · by_cases h2 : y.toNat < x.toNat
        · right; simp [charsLe, h2]
        · have := ih ys
          simpa [charsLe, h1, h2] using this

theorem char_toNat_inj {a b : Char} (h : a.toNat = b.toNat) : a = b := by
  rw [← Char.ofNat_toNat a, ← Char.ofNat_toNat b, h]

theorem charsLe_antisymm {a b : List Char} (h1 : charsLe a b = true)
    (h2 : charsLe b a = true) : a = b := by
  induction a generalizing b with
  | nil =>
    cases b with
    | nil => rfl
    | cons y ys => simp [charsLe] at h2
  | cons x xs ih =>
    cases b with
    | nil => simp [charsLe] at h1
    | cons y ys =>
      by_cases hxy : x.toNat < y.toNat
      · have : ¬ y.toNat < x.toNat := by omega
        simp [charsLe, hxy, this] at h2
      · by_cases hyx : y.toNat < x.toNat
        · simp [charsLe, hxy, hyx] at h1
        · have hx : x = y := char_toNat_inj (by omega)
          subst hx
          simp only [charsLe, hxy, if_neg, lt_irrefl, if_false] at h1 h2
          have := ih (b := ys) h1 h2
          rw [this]

theorem charsLe_trans {a b c : List Char} (h1 : charsLe a b = true)
    (h2 : charsLe b c = true) : charsLe a c = true := by
  induction a generalizing b c with
  | nil => rfl
  | cons x xs ih =>
    cases b with
    | nil => simp [charsLe] at h1
    | cons y ys =>
      cases c with
      | nil => simp [charsLe] at h2
      | cons z zs =>
        by_cases hxy : x.toNat < y.toNat <;> by_cases hyz : y.toNat < z.toNat
        · simp [charsLe, show x.toNat < z.toNat by omega]
        · by_cases hzy : z.toNat < y.toNat
          · simp [charsLe, hyz, hzy] at h2
          · have hy : y = z := char_toNat_inj (by omega)
            subst hy
            simp [charsLe, hxy]
        · by_cases hyx : y.toNat < x.toNat
          · simp [charsLe, hxy, hyx] at h1
          · have hx : x = y := char_toNat_inj (by omega)
            subst hx
            simp [charsLe, hyz]
        · by_cases hyx : y.toNat < x.toNat
          · simp [charsLe, hxy, hyx] at h1
          · by_cases hzy : z.toNat < y.toNat
            · simp [charsLe, hyz, hzy] at h2
            · have hx : x = y := char_toNat_inj (by omega)
              have hy : y = z := char_toNat_inj (by omega)
              subst hx; subst hy
              simp only [charsLe, lt_irrefl, if_neg, if_false] at h1 h2 ⊢
              exact ih h1 h2

theorem sortStrings_perm_congr {l l' : List String} (h : l.Perm l') :
    sortStrings l = sortStrings l' := by
  haveI : IsTotal String strLe := ⟨fun a b => charsLe_total a.data b.data⟩
  haveI : IsTrans String strLe := ⟨fun _ _ _ h1 h2 => charsLe_trans h1 h2⟩
  haveI : IsAntisymm String strLe :=
    ⟨fun a b h1 h2 => by
      have hd : a.data = b.data := charsLe_antisymm h1 h2
      calc a = String.mk a.data := rfl
      _ = String.mk b.data := congrArg String.mk hd
      _ = b := rfl⟩
  have hs1 : List.Sorted strLe (sortStrings l) := List.sorted_insertionSort strLe l
  have hs2 : List.Sorted strLe (sortStrings l') := List.sorted_insertionSort strLe l'
  have hp : (sortStrings l).Perm (sortStrings l') :=
    ((List.perm_insertionSort strLe l).trans h).trans (List.perm_insertionSort strLe l').symm
  exact List.eq_of_perm_of_sorted hp hs1 hs2

theorem bytesToString_strToBytes (s : String) : bytesToString (strToBytes s) = some s := by
  have hvalid : (strToBytes s).all isValidCharNatB = true := by
    rw [List.all_eq_true]
    intro x hx
    rw [strToBytes, List.mem_map] at hx
    obtain ⟨c, _, hc⟩ := hx
    subst hc
    have := c.val.isValidChar
    rcases c.valid with h | ⟨h1, h2⟩
    · simp [isValidCharNatB, Char.toNat]
      omega
    · simp [isValidCharNatB, Char.toNat]
      omega
  rw [bytesToString, if_pos hvalid]
  have : (strToBytes s).map Char.ofNat = s.data := by
    rw [strToBytes, List.map_map]
    have : (Char.ofNat ∘ Char.toNat) = id := by
      funext c
      exact Char.ofNat_toNat c
    rw [this, List.map_id]
  rw [this]

theorem lebGo_decode (fuel : Nat) : ∀ n, n ≤ fuel → ∀ rest,
    lebDecode (lebGo fuel n ++ rest) = some (n, rest) := by
  induction fuel with
  | zero =>
    intro n hn rest
    interval_cases n
    simp [lebGo, lebDecode]
  | succ f ih =>
    intro n hn rest
    rw [lebGo]
    by_cases h : n < 128
    · simp [h, lebDecode]
    · have hdiv : n / 128 ≤ f := by
        have h1 : n / 128 < n := Nat.div_lt_self (by omega) (by omega)
        omega
      simp only [h, if_false, List.cons_append, lebDecode]
      rw [if_neg (by omega)]
      rw [ih (n / 128) hdiv rest]
      show some (n % 128 + 128 - 128 + 128 * (n / 128), rest) = some (n, rest)
      have he : n % 128 + 128 - 128 + 128 * (n / 128) = n := by omega
      rw [he]

theorem lebDecode_lebEncode (n : Nat) (rest : List Nat) :
    lebDecode (lebEncode n ++ rest) = some (n, rest) := lebGo_decode n n le_rfl rest

theorem lebGo_lt (fuel : Nat) : ∀ n, n ≤ fuel → ∀ b ∈ lebGo fuel n, b < 256 := by
  induction fuel with
  | zero =>
    intro n hn b hb
    interval_cases n
    simp [lebGo] at hb
    omega
  | succ f ih =>
    intro n hn b hb
    rw [lebGo] at hb
    by_cases h : n < 128
    · simp [h] at hb
      omega
    · simp only [h, if_false, List.mem_cons] at hb
      rcases hb with hb | hb
      · omega
      · have hdiv : n / 128 ≤ f := by
          have h1 : n / 128 < n := Nat.div_lt_self (by omega) (by omega)
          omega
        exact ih (n / 128) hdiv b hb

theorem lebEncode_lt (n : Nat) : ∀ b ∈ lebEncode n, b < 256 :=
  lebGo_lt n n le_rfl

theorem readNats_concatAll (l : List Nat) (rest : List Nat) :
    readNats l.length (concatAll lebEncode l ++ rest) = some (l, rest) := by
  induction l generalizing rest with
  | nil => simp [readNats, concatAll]
  | cons x xs ih =>
    simp only [List.length_cons, concatAll, readNats, List.append_assoc]
    rw [lebDecode_lebEncode]
    dsimp only
    rw [ih rest]

theorem readChars_concatAll (l : List Char) (rest : List Nat) :
    readChars l.length (concatAll (fun c => lebEncode c.toNat) l ++ rest) = some (l, rest) := by
  induction l generalizing rest with
  | nil => simp [readChars, concatAll]
  | cons x xs ih =>
    simp only [List.length_cons, concatAll, readChars, List.append_assoc]
    rw [lebDecode_lebEncode]
    dsimp only
    rw [ih rest, Char.ofNat_toNat]

theorem readStr_strEnc (s : String) (rest : List Nat) :
    readStr (strEnc s ++ rest) = some (s, rest) := by
  rw [strEnc, readStr, List.append_assoc, lebDecode_lebEncode]
  dsimp only
  rw [readChars_concatAll]

theorem readStrs_concatAll (l : List String) (rest : List Nat) :
    readStrs l.length (concatAll strEnc l ++ rest) = some (l, rest) := by
  induction l generalizing rest with
  | nil => simp [readStrs, concatAll]
  | cons x xs ih =>
    simp only [List.length_cons, concatAll, readStrs, List.append_assoc]
    rw [readStr_strEnc]
    dsimp only
    rw [ih rest]

theorem ctDecode_ctEncode (ct : AgeCiphertext) : ctDecode (ctEncode ct) = some ct := by
  obtain ⟨rs, ps⟩ := ct
  rw [ctEncode, ctDecode]
  simp only [List.append_assoc]
  rw [lebDecode_lebEncode]
  dsimp only
  rw [readStrs_concatAll]
  dsimp only
  rw [lebDecode_lebEncode]
  dsimp only
  have h4 := readNats_concatAll ps []
  rw [List.append_nil] at h4
  rw [h4]
  rfl

theorem concatAll_lt {α : Type} (f : α → List Nat) (l : List α)
    (hf : ∀ x ∈ l, ∀ b ∈ f x, b < 256) : ∀ b ∈ concatAll f l, b < 256 := by
  induction l with
  | nil => intro b hb; simp [concatAll] at hb
  | cons x xs ih =>
    intro b hb
    rw [concatAll, List.mem_append] at hb
    rcases hb with hb | hb
    · exact hf x (List.mem_cons_self x xs) b hb
    · exact ih (fun y hy => hf y (List.mem_cons_of_mem x hy)) b hb

theorem strEnc_lt (s : String) : ∀ b ∈ strEnc s, b < 256 := by
  intro b hb
  rw [strEnc, List.mem_append] at hb
  rcases hb with hb | hb
  · exact lebEncode_lt _ b hb
  · exact concatAll_lt _ _ (fun c _ => lebEncode_lt c.toNat) b hb

theorem ctEncode_lt (ct : AgeCiphertext) : ∀ b ∈ ctEncode ct, b < 256 := by
  intro b hb
  rw [ctEncode] at hb
  simp only [List.append_assoc, List.mem_append] at hb
  rcases hb with hb | hb | hb | hb
  · exact lebEncode_lt _ b hb
  · exact concatAll_lt _ _ (fun s _ => strEnc_lt s) b hb
  · exact lebEncode_lt _ b hb
  · exact concatAll_lt _ _ (fun n _ => lebEncode_lt n) b hb

theorem b64Index_b64Char : ∀ n, n < 64 → b64Index (b64Char n) = some n := by decide

theorem b64_roundtrip : ∀ bs : List Nat, (∀ b ∈ bs, b < 256) →
    b64DecodeChars (b64EncodeBytes bs) = some bs := by
  intro bs
  induction bs using b64EncodeBytes.induct with
  | case1 => intro _; rfl
  | case2 a =>
    intro h
    have ha : a < 256 := h a (by simp)
    rw [b64EncodeBytes, b64DecodeChars]
    rw [b64Index_b64Char _ (by omega), b64Index_b64Char _ (by omega)]
    dsimp only
    rw [if_pos (by omega)]
    have : a / 4 * 4 + a % 4 * 16 / 16 = a := by omega
    rw [this]
  | case3 a b =>
    intro h
    have ha : a < 256 := h a (by simp)
    have hb : b < 256 := h b (by simp)
    rw [b64EncodeBytes, b64DecodeChars]
    rw [b64Index_b64Char _ (by omega), b64Index_b64Char _ (by omega),
      b64Index_b64Char _ (by omega)]
    dsimp only
    rw [if_pos (by omega)]
    have e1 : a / 4 * 4 + (a % 4 * 16 + b / 16) / 16 = a := by omega
    have e2 : (a % 4 * 16 + b / 16) % 16 * 16 + b % 16 * 4 / 4 = b := by omega
    rw [e1, e2]
  | case4 a b c rest ih =>
    intro h
    have ha : a < 256 := h a (by simp)
    have hb : b < 256 := h b (by simp)
    have hc : c < 256 := h c (by simp)
    have hrest : ∀ x ∈ rest, x < 256 := fun x hx => h x (by simp [hx])
    rw [b64EncodeBytes, b64DecodeChars]
    rw [b64Index_b64Char _ (by omega), b64Index_b64Char _ (by omega),
      b64Index_b64Char _ (by omega), b64Index_b64Char _ (by omega)]
    dsimp only
    rw [ih hrest]
    have e1 : a / 4 * 4 + (a % 4 * 16 + b / 16) / 16 = a := by omega
    have e2 : (a % 4 * 16 + b / 16) % 16 * 16 + (b % 16 * 4 + c / 64) / 4 = b := by omega
    have e3 : (b % 16 * 4 + c / 64) % 4 * 64 + c % 64 = c := by omega
    rw [e1, e2, e3]

theorem b64DecodeStr_b64EncodeStr (bs : List Nat) (h : ∀ b ∈ bs, b < 256) :
    b64DecodeStr (b64EncodeStr bs) = some bs := b64_roundtrip bs h

/-- C1: inserting a `DecryptedMessage` into a conversation message map via the
(spec-modelled) collision-safe insert is idempotent — inserting the same
message twice into an empty map leaves the map at size 1 — and two messages
with identical `created_at` but different plaintext land under the distinct
keys `(t, 0)` and `(t, 1)`, both present and retrievable. -/
theorem insert_with_collisions_idempotent_and_collision_keys
    (m m1 m2 : DecryptedMessage)
    (hts : m2.created_at = m1.created_at)
    (hne : m1.message ≠ m2.message) :
    (insert_with_collisions (insert_with_collisions [] m) m).length = 1 ∧
    lookupA (insert_with_collisions (insert_with_collisions [] m1) m2)
      ⟨m1.created_at, 0⟩ = some m1 ∧
    lookupA (insert_with_collisions (insert_with_collisions [] m1) m2)
      ⟨m1.created_at, 1⟩ = some m2 := by
  have hne12 : m1 ≠ m2 := fun h => hne (by rw [h])
  have hfirst : ∀ x : DecryptedMessage,
      insert_with_collisions [] x = [(⟨x.created_at, 0⟩, x)] := fun _ => rfl
  refine ⟨?_, ?_, ?_⟩
  · rw [hfirst m]
    simp [insert_with_collisions, insertGo, lookupA]
  · rw [hfirst m1]
    simp [insert_with_collisions, insertGo, lookupA, insertA, hts, hne12,
      MessageKey.mk.injEq]
  · rw [hfirst m1]
    simp [insert_with_collisions, insertGo, lookupA, insertA, hts, hne12,
      MessageKey.mk.injEq]

/-- Witness for C1 at a concrete pair of messages sharing `created_at = 5`. -/
theorem insert_with_collisions_c1_witness :
    (insert_with_collisions (insert_with_collisions [] msgW1) msgW1).length = 1 ∧
    lookupA (insert_with_collisions (insert_with_collisions [] msgW1) msgW2)
      ⟨5, 0⟩ = some msgW1 ∧
    lookupA (insert_with_collisions (insert_with_collisions [] msgW1) msgW2)
      ⟨5, 1⟩ = some msgW2 :=
  insert_with_collisions_idempotent_and_collision_keys msgW1 msgW1 msgW2 rfl (by decide)

/-- C2: for every payload and every recipient list containing the public key
derived from the local identity, `decrypt_and_decode` recovers the exact
payload from the output of `encrypt_and_encode` (with `ser` and `de` the
CBOR serializer pair of the payload type, assumed to round-trip). -/
theorem encrypt_decrypt_roundtrip {α : Type} (ser : α → List Nat) (de : List Nat → Option α)
    (identity : AgeIdentity) (recipients : List String) (payload : α)
    (hser : ∀ x, de (ser x) = some x)
    (hmem : identity.toPublic ∈ recipients) :
    ∃ s, encrypt_and_encode ser recipients payload = .ok s ∧
      decrypt_and_decode de identity s = .ok payload := by
  have hne : recipients.isEmpty = false := by
    cases recipients with
    | nil => cases hmem
    | cons a t => rfl
  refine ⟨b64EncodeStr (ctEncode ⟨recipients, ser payload⟩), ?_, ?_⟩
  · rw [encrypt_and_encode, AgeEncryptor.with_recipients, hne]
    rfl
  · rw [decrypt_and_decode,
      b64DecodeStr_b64EncodeStr _ (ctEncode_lt ⟨recipients, ser payload⟩)]
    dsimp only
    rw [ctDecode_ctEncode]
    dsimp only
    rw [ageDecrypt]
    rw [if_pos hmem]
    dsimp only
    rw [hser payload]

/-- Witness for C2 at a concrete identity, recipient list and payload. -/
theorem encrypt_decrypt_roundtrip_witness :
    ∃ s, encrypt_and_encode (fun x : List Nat => x) ["age-pub:w2"] [1, 2, 3] = .ok s ∧
      decrypt_and_decode some ⟨"w2"⟩ s = .ok [1, 2, 3] :=
  encrypt_decrypt_roundtrip (fun x => x) some ⟨"w2"⟩ ["age-pub:w2"] [1, 2, 3]
    (fun _ => rfl) (by decide)

/-- C9 counterexample: on an empty recipient list `encrypt_and_encode` panics
(the `expect("we provided a recipient")` on `with_recipients`), it does not
return an `EncryptError`. -/
theorem encrypt_and_encode_empty_recipients_panics :
    encrypt_and_encode (fun x : List Nat => x) [] [1] = .panicked "we provided a recipient" ∧
    encrypt_and_encode (fun x : List Nat => x) [] [1] ≠ .err .encryptError := by
  exact ⟨rfl, by decide⟩

/-- C9 amended: for every serializer and payload, `encrypt_and_encode` with
an empty recipient list panics with the `expect` message rather than
returning an error. -/
theorem encrypt_and_encode_empty_recipients_panic_theorem {α : Type}
    (ser : α → List Nat) (p : α) :
    encrypt_and_encode ser [] p = .panicked "we provided a recipient" := rfl

/-- Witness for the amended C9 statement at a concrete payload. -/
theorem encrypt_and_encode_empty_recipients_panic_witness :
    encrypt_and_encode (fun x : List Nat => x) [] [2] = .panicked "we provided a recipient" :=
  encrypt_and_encode_empty_recipients_panic_theorem (fun x => x) [2]

/-- C10: the Up and Down scroll handlers of `ScrollingMessages` mode are total
exactly on conversations with at least one message — there they keep the
selected index inside `[0, messages.len())` — while on an empty conversation
the `messages.len() - 1` arithmetic underflows: Up panics from selection 0
and Down panics from any selection. -/
theorem scroll_handlers_total_iff_nonempty (app : AppState) (cid : String) (c : Conversation)
    (hcur : app.current_conversation_id = some cid)
    (hconv : lookupA app.conversations cid = some c) :
    (1 ≤ c.messages.length →
      ((app.conversation_state = none →
          scroll_up app = .ok { app with conversation_state := some 0 } ∧
          scroll_down app = .ok { app with conversation_state := some 0 } ∧
          0 < c.messages.length) ∧
       (∀ i, app.conversation_state = some i → i < c.messages.length →
          ∃ j, scroll_up app = .ok { app with conversation_state := some j } ∧
            j < c.messages.length) ∧
       (∀ i, app.conversation_state = some i → i < c.messages.length →
          ∃ j, scroll_down app = .ok { app with conversation_state := some j } ∧
            j < c.messages.length))) ∧
    (c.messages.length = 0 →
      (app.conversation_state = some 0 →
        scroll_up app = .error "attempt to subtract with overflow") ∧
      (∀ i, app.conversation_state = some i →
        scroll_down app = .error "attempt to subtract with overflow")) := by
  constructor
  · intro hlen
    refine ⟨?_, ?_, ?_⟩
    · intro hst
      rw [scroll_up, scroll_down, hcur, hst]
      exact ⟨rfl, rfl, hlen⟩
    · intro i hst hi
      rw [scroll_up, hcur, hst]
      dsimp only
      by_cases hi0 : i = 0
      · subst hi0
        rw [if_pos rfl, hconv]
        dsimp only
        rw [checkedSub, if_pos hlen]
        exact ⟨c.messages.length - 1, rfl, by omega⟩
      · rw [if_neg hi0]
        exact ⟨i - 1, rfl, by omega⟩
    · intro i hst hi
      rw [scroll_down, hcur, hst]
      dsimp only
      rw [hconv]
      dsimp only
      rw [checkedSub, if_pos hlen]
      dsimp only
      refine ⟨if c.messages.length - 1 ≤ i then 0 else i + 1, rfl, ?_⟩
      by_cases hc2 : c.messages.length - 1 ≤ i
      · rw [if_pos hc2]; omega
      · rw [if_neg hc2]; omega
  · intro hlen
    constructor
    · intro hst
      rw [scroll_up, hcur, hst]
      dsimp only
      rw [if_pos rfl, hconv]
      dsimp only
      rw [checkedSub, if_neg (by omega)]
    · intro i hst
      rw [scroll_down, hcur, hst]
      dsimp only
      rw [hconv]
      dsimp only
      rw [checkedSub, if_neg (by omega)]

/-- Witness for C10 at a one-message conversation with the message
selected. -/
theorem scroll_handlers_total_iff_nonempty_witness :
    (1 ≤ convC10.messages.length →
      ((appC10.conversation_state = none →
          scroll_up appC10 = .ok { appC10 with conversation_state := some 0 } ∧
          scroll_down appC10 = .ok { appC10 with conversation_state := some 0 } ∧
          0 < convC10.messages.length) ∧
       (∀ i, appC10.conversation_state = some i → i < convC10.messages.length →
          ∃ j, scroll_up appC10 = .ok { appC10 with conversation_state := some j } ∧
            j < convC10.messages.length) ∧
       (∀ i, appC10.conversation_state = some i → i < convC10.messages.length →
          ∃ j, scroll_down appC10 = .ok { appC10 with conversation_state := some j } ∧
            j < convC10.messages.length))) ∧
    (convC10.messages.length = 0 →
      (appC10.conversation_state = some 0 →
        scroll_up appC10 = .error "attempt to subtract with overflow") ∧
      (∀ i, appC10.conversation_state = some i →
        scroll_down appC10 = .error "attempt to subtract with overflow")) :=
  scroll_handlers_total_iff_nonempty appC10 "cid-10" convC10 rfl rfl

/-- C3 counterexample: a frame whose first operation path lies under
`app.bsky.feed.post/` — hence does not begin with `actor.profile/` — makes
`process_message` emit a message on the channel, so the `actor.profile/`
filter claimed by the specification is not the filter the code applies. -/
theorem process_message_emits_on_feed_post_path :
    processFrame "me" identC3 envC3 (.commit commitC3) = .ok (some msgC3) ∧
    commitC3.operations = [{ path := "app.bsky.feed.post/3abc", cid := some 7 }] ∧
    strStartsWith "app.bsky.feed.post/3abc" "actor.profile/" = false := by
  refine ⟨by decide, rfl, by decide⟩

/-- C3 amended: the filters `process_message` actually applies are necessary
conditions for emission — an emitted message implies the first operation path
begins with `app.bsky.feed.post/`, and the block's post text begins with
`/dm` and mentions `@` plus the local handle. -/
theorem process_message_emission_necessary_conditions
    (handle : String) (identity : AgeIdentity) (env : FirehoseEnv)
    (commit : FirehoseCommit) (m : BMessage)
    (h : processFrame handle identity env (.commit commit) = .ok (some m)) :
    ∃ op rest, commit.operations = op :: rest ∧
      strStartsWith op.path "app.bsky.feed.post/" = true ∧
      ∃ cid post, op.cid = some cid ∧ commit.blocks cid = some post ∧
        strStartsWith post.text "/dm" = true ∧
        strContains post.text ("@" ++ handle) = true := by
  rw [processFrame] at h
  rcases hops : commit.operations with _ | ⟨op, rest⟩
  · rw [hops] at h
    exact absurd h (by simp)
  · rw [hops] at h
    dsimp only at h
    refine ⟨op, rest, rfl, ?_⟩
    by_cases hpath : strStartsWith op.path "app.bsky.feed.post/" = true
    · rw [if_pos hpath] at h
      refine ⟨hpath, ?_⟩
      rcases hcid : op.cid with _ | cid
      · rw [hcid] at h
        exact absurd h (by simp)
      · rw [hcid] at h
        dsimp only at h
        rcases hblock : commit.blocks cid with _ | post
        · rw [hblock] at h
          exact absurd h (by simp)
        · rw [hblock] at h
          dsimp only at h
          refine ⟨cid, post, rfl, hblock, ?_⟩
          by_cases hdm : strStartsWith post.text "/dm" = true
          · rw [if_pos hdm] at h
            refine ⟨hdm, ?_⟩
            by_cases hcont : strContains post.text ("@" ++ handle) = true
            · exact hcont
            · rw [if_neg hcont] at h
              exact absurd h (by simp)
          · rw [if_neg hdm] at h
            exact absurd h (by simp)
    · rw [if_neg hpath] at h
      exact absurd h (by simp)

/-- Witness for the amended C3 statement: the necessary conditions extracted
from the concrete emitting frame. -/
theorem process_message_emission_witness :
    ∃ op rest, commitC3.operations = op :: rest ∧
      strStartsWith op.path "app.bsky.feed.post/" = true ∧
      ∃ cid post, op.cid = some cid ∧ commitC3.blocks cid = some post ∧
        strStartsWith post.text "/dm" = true ∧
        strContains post.text ("@" ++ "me") = true :=
  process_message_emission_necessary_conditions "me" identC3 envC3 commitC3 msgC3 (by decide)

theorem resolveList_eq (res : String → Option String) (l : List String) :
    resolveList res l =
      if l.all (fun h => (res h).isSome) then .ok (l.filterMap res) else .error .biskyError := by
  induction l with
  | nil => rfl
  | cons h t ih =>
    rw [resolveList]
    cases hr : res h with
    | none =>
      have : (h :: t).all (fun x => (res x).isSome) = false := by
        simp [List.all_cons, hr]
      rw [this, if_neg (by simp)]
    | some d =>
      rw [ih]
      by_cases hall : t.all (fun x => (res x).isSome) = true
      · rw [if_pos hall]
        dsimp only
        have h2 : (h :: t).all (fun x => (res x).isSome) = true := by
          simp [List.all_cons, hr, hall]
        rw [h2, if_pos rfl, List.filterMap_cons, hr]
      · rw [if_neg hall]
        dsimp only
        have hf : t.all (fun x => (res x).isSome) = false := Bool.eq_false_iff.mpr hall
        have h2 : (h :: t).all (fun x => (res x).isSome) = false := by
          rw [List.all_cons, hf, Bool.and_false]
        rw [h2, if_neg (by simp)]

theorem all_perm_congr {l l' : List String} (h : l.Perm l') (p : String → Bool) :
    l.all p = l'.all p := by
  rw [Bool.eq_iff_iff, List.all_eq_true, List.all_eq_true]
  exact ⟨fun hh x hx => hh x (h.mem_iff.mpr hx), fun hh x hx => hh x (h.mem_iff.mp hx)⟩

theorem canonicalDids_perm_congr (w : World) (handle : String) {H H' : List String}
    (hperm : H.Perm H') :
    canonicalDids w handle H = canonicalDids w handle H' := by
  have hp2 : (H ++ [handle]).Perm (H' ++ [handle]) := hperm.append_right [handle]
  rw [canonicalDids, canonicalDids, resolveList_eq, resolveList_eq,
    all_perm_congr hp2 (fun h => (w.resolve h).isSome)]
  by_cases hall : (H' ++ [handle]).all (fun h => (w.resolve h).isSome) = true
  · rw [if_pos hall, if_pos hall]
    dsimp only
    rw [sortStrings_perm_congr (hp2.filterMap w.resolve)]
  · rw [if_neg hall, if_neg hall]

/-- C4 counterexample: the canonicalization `load_conversation` performs
(resolve the handles plus the local handle, then sort) does not deduplicate —
on the duplicate handle list `["bob", "bob"]` it produces the key
`["did:bob", "did:bob", "did:me"]`, while the specification's
canonicalization (resolve, append the local DID, sort, deduplicate) produces
`["did:bob", "did:me"]`. -/
theorem canonicalization_no_dedup_counterexample :
    canonicalDids worldC4 "me" ["bob", "bob"] = .ok ["did:bob", "did:bob", "did:me"] ∧
    canonicalDidsSpec worldC4 "did:me" ["bob", "bob"] = .ok ["did:bob", "did:me"] ∧
    (["did:bob", "did:bob", "did:me"] : List String) ≠ ["did:bob", "did:me"] := by
  refine ⟨rfl, rfl, by decide⟩

/-- C4 amended: `load_conversation` is invariant under permutation of its
input handle list — the whole result (returned conversation id, app state and
world) coincides — because the participants are canonicalized by resolving
the handles together with the local handle and sorting lexicographically
(without deduplication) before any lookup. -/
theorem load_conversation_perm_invariant (w : World) (app : AppState)
    (H H' : List String) (hperm : H.Perm H') :
    loadConversation w app H = loadConversation w app H' := by
  rw [loadConversation, loadConversation, canonicalDids_perm_congr w app.handle hperm]

/-- Witness for the amended C4 statement on a concrete swapped handle
list. -/
theorem load_conversation_perm_invariant_witness :
    loadConversation worldC4b appC4 ["a", "b"] = loadConversation worldC4b appC4 ["b", "a"] :=
  load_conversation_perm_invariant worldC4b appC4 ["a", "b"] ["b", "a"]
    (List.Perm.swap "b" "a" [])

theorem upload_rc_map_lookup (w : World) (handle : String) (key : List String)
    (value : String) (w2 : World)
    (h : upload_rc_map_to_profile w handle key value = .ok w2) :
    rcLookup w2 handle key = some value := by
  rw [upload_rc_map_to_profile] at h
  cases hp : w.profiles handle with
  | none =>
    rw [hp] at h
    exact absurd h (by simp)
  | some p =>
    rw [hp] at h
    dsimp only at h
    injection h with h2
    rw [← h2, rcLookup]
    dsimp only
    rw [if_pos rfl]
    dsimp only
    exact lookupA_insertA_self _ _ _

theorem finishLoad_ok (w : World) (app : AppState) (dids : List String) (cid : String)
    (hc : app.current_conversation_id = some cid) :
    (finishLoad w app dids).1 = .ok cid ∧
    (finishLoad w app dids).2.1.recipients_conversation_map =
      app.recipients_conversation_map ∧
    (finishLoad w app dids).2.2 = w := by
  rw [finishLoad, hc]
  dsimp only
  split
  · exact ⟨rfl, rfl, rfl⟩
  · exact ⟨rfl, rfl, rfl⟩

theorem adopt_ok (w : World) (app : AppState) (dids : List String) (cid : String)
    (app2 : AppState) (w2 : World)
    (h : adoptConversation w app dids cid = (.ok (), app2, w2)) :
    lookupA app2.recipients_conversation_map dids = some cid ∧
    rcLookup w2 app.handle dids = some cid ∧
    app2.current_conversation_id = some cid := by
  rw [adoptConversation] at h
  dsimp only at h
  split at h
  · simp only [Prod.mk.injEq] at h
    exact absurd h.1 (by simp)
  · rename_i w3 hu
    simp only [Prod.mk.injEq] at h
    obtain ⟨-, happ, hw⟩ := h
    subst happ
    subst hw
    refine ⟨lookupA_insertA_self _ _ _, ?_, rfl⟩
    exact upload_rc_map_lookup _ _ _ _ _ hu

theorem adopt_then_finish (w0 : World) (app : AppState) (dids : List String)
    (c cid : String) (app2 : AppState) (w2 : World)
    (h : (match adoptConversation w0 app dids c with
          | (.error e, a2, w3) => ((.err e : Outcome String), a2, w3)
          | (.ok _, a2, w3) => finishLoad w3 a2 dids) = (.ok cid, app2, w2)) :
    cid = c ∧ lookupA app2.recipients_conversation_map dids = some c ∧
    rcLookup w2 app.handle dids = some c := by
  rcases ha : adoptConversation w0 app dids c with ⟨r, appA, wA⟩
  rw [ha] at h
  cases r with
  | error e =>
    dsimp only at h
    simp only [Prod.mk.injEq] at h
    exact absurd h.1 (by simp)
  | ok u =>
    cases u
    dsimp only at h
    obtain ⟨a1, a2, a3⟩ := adopt_ok w0 app dids c appA wA ha
    obtain ⟨f1, f2, f3⟩ := finishLoad_ok wA appA dids c a3
    have e1 : (.ok c : Outcome String) = .ok cid := by rw [← f1, h]
    injection e1 with e1
    have e2 : (finishLoad wA appA dids).2.1 = app2 := by rw [h]
    have e3 : (finishLoad wA appA dids).2.2 = w2 := by rw [h]
    refine ⟨e1.symm, ?_, ?_⟩
    · rw [← e2, f2]
      exact a1
    · rw [← e3, f3]
      exact a2

/-- C5 counterexample: the adopting branches of `load_conversation` insert
into the in-memory directory before the fallible profile upload, so a failed
upload leaves a memory entry with no profile mirror; a second
`load_conversation` on the same handles — run on exactly the app state and
world the failed call returned — takes the memory-hit branch, succeeds, and
returns an id that the self-profile `bmail_rc_map` does not map the canonical
key to.  This refutes the claim for that successful call. -/
theorem load_conversation_memory_profile_divergence :
    (loadConversation worldC5b appC5b ["bob"]).1 = .err .biskyError ∧
    lookupA ((loadConversation worldC5b appC5b ["bob"]).2.1).recipients_conversation_map
      ["did:bob", "did:me"] = some "uuid-5b" ∧
    (loadConversation (loadConversation worldC5b appC5b ["bob"]).2.2
        ((loadConversation worldC5b appC5b ["bob"]).2.1) ["bob"]).1 = .ok "uuid-5b" ∧
    rcLookup (loadConversation (loadConversation worldC5b appC5b ["bob"]).2.2
        ((loadConversation worldC5b appC5b ["bob"]).2.1) ["bob"]).2.2
      "me" ["did:bob", "did:me"] = none := by
  refine ⟨rfl, rfl, rfl, rfl⟩

/-- C5 amended: after a successful `load_conversation(H)` from a pre-state
whose in-memory directory is mirrored in the profile directory (`hcons`),
the in-memory `recipients_conversation_map` and the self-profile
`bmail_rc_map` both map the canonical participant key to the returned
conversation id.  The mirroring hypothesis is required because the
memory-hit branch uploads nothing, and the adopting branches insert into
memory before the fallible upload — a failed upload leaves an unmirrored
memory entry from which a later memory-hit load succeeds while the profile
directory still lacks the key (see the divergence counterexample). -/
theorem load_conversation_directory_consistency
    (w : World) (app : AppState) (H dids : List String) (cid : String)
    (app2 : AppState) (w2 : World)
    (hcons : ∀ k v, lookupA app.recipients_conversation_map k = some v →
      rcLookup w app.handle k = some v)
    (hdids : canonicalDids w app.handle H = .ok dids)
    (hload : loadConversation w app H = (.ok cid, app2, w2)) :
    lookupA app2.recipients_conversation_map dids = some cid ∧
    rcLookup w2 app.handle dids = some cid := by
  rw [loadConversation, hdids] at hload
  dsimp only at hload
  rw [loadConversationWithDids] at hload
  cases hmem : lookupA app.recipients_conversation_map dids with
  | some cid0 =>
    rw [hmem] at hload
    dsimp only at hload
    obtain ⟨f1, f2, f3⟩ :=
      finishLoad_ok w { app with current_conversation_id := some cid0 } dids cid0 rfl
    have e1 : (.ok cid0 : Outcome String) = .ok cid := by rw [← f1, hload]
    injection e1 with e1
    subst e1
    have e2 :
        (finishLoad w { app with current_conversation_id := some cid0 } dids).2.1 = app2 := by
      rw [hload]
    have e3 :
        (finishLoad w { app with current_conversation_id := some cid0 } dids).2.2 = w2 := by
      rw [hload]
    constructor
    · rw [← e2, f2]
      exact hmem
    · rw [← e3, f3]
      exact hcons dids cid0 hmem
  | none =>
    rw [hmem] at hload
    dsimp only at hload
    rcases hself : get_cid_from_rc_map_from_profile w app.handle dids with e | oc
    · rw [hself] at hload
      dsimp only at hload
      rcases hpeer : peerScan w app.user_did dids dids with e2 | oc2
      · rw [hpeer] at hload
        dsimp only at hload
        obtain ⟨ec, h1, h2⟩ := adopt_then_finish _ app dids _ cid app2 w2 hload
        subst ec
        exact ⟨h1, h2⟩
      · cases oc2 with
        | none =>
          rw [hpeer] at hload
          dsimp only at hload
          obtain ⟨ec, h1, h2⟩ := adopt_then_finish _ app dids _ cid app2 w2 hload
          subst ec
          exact ⟨h1, h2⟩
        | some c =>
          rw [hpeer] at hload
          dsimp only at hload
          obtain ⟨ec, h1, h2⟩ := adopt_then_finish _ app dids _ cid app2 w2 hload
          subst ec
          exact ⟨h1, h2⟩
    · cases oc with
      | none =>
        rw [hself] at hload
        dsimp only at hload
        rcases hpeer : peerScan w app.user_did dids dids with e2 | oc2
        · rw [hpeer] at hload
          dsimp only at hload
          obtain ⟨ec, h1, h2⟩ := adopt_then_finish _ app dids _ cid app2 w2 hload
          subst ec
          exact ⟨h1, h2⟩
        · cases oc2 with
          | none =>
            rw [hpeer] at hload
            dsimp only at hload
            obtain ⟨ec, h1, h2⟩ := adopt_then_finish _ app dids _ cid app2 w2 hload
            subst ec
            exact ⟨h1, h2⟩
          | some c =>
            rw [hpeer] at hload
            dsimp only at hload
            obtain ⟨ec, h1, h2⟩ := adopt_then_finish _ app dids _ cid app2 w2 hload
            subst ec
            exact ⟨h1, h2⟩
      | some c =>
        rw [hself] at hload
        dsimp only at hload
        obtain ⟨ec, h1, h2⟩ := adopt_then_finish _ app dids _ cid app2 w2 hload
        subst ec
        exact ⟨h1, h2⟩

/-- Witness for C5: a concrete fresh load whose returned id lands in both
directories. -/
theorem load_conversation_directory_consistency_witness :
    lookupA ((loadConversation worldC5 appC5 ["bob"]).2.1).recipients_conversation_map
      ["did:bob", "did:me"] = some "uuid-5" ∧
    rcLookup (loadConversation worldC5 appC5 ["bob"]).2.2 "me"
      ["did:bob", "did:me"] = some "uuid-5" :=
  load_conversation_directory_consistency worldC5 appC5 ["bob"]
    ["did:bob", "did:me"] "uuid-5"
    (loadConversation worldC5 appC5 ["bob"]).2.1
    (loadConversation worldC5 appC5 ["bob"]).2.2
    (fun _ _ h => Option.noConfusion h)
    rfl
    rfl

theorem notifyGo_bmailRecords (cid : String) (allR : List String) (w : World)
    (l : List String) :
    ((notifyGo cid allR w l).2).bmailRecords = w.bmailRecords := by
  induction l generalizing w with
  | nil => rfl
  | cons r rest ih =>
    rw [notifyGo]
    split
    · rfl
    · rename_i p hodd
      split
      · rfl
      · split
        · rfl
        · exact ih _

/-- C6 counterexample: a send whose resolved, sorted recipient DID set
differs from the stored participant set of the target conversation is not
rejected — `send_bmail` succeeds and the record is published (and the error
enumeration of the code contains no `ParticipantMismatch` at all). -/
theorem send_bmail_no_participant_mismatch_check :
    (lookupA appC6.conversations "cid-6").map Conversation.participants =
      some ["did:alice", "did:me"] ∧
    sortStrings ["did:bob"] ≠ ["did:alice", "did:me"] ∧
    (send_bmail worldC6 appC6 "cid-6" ["bob"] "hi").1 = .ok () ∧
    ((send_bmail worldC6 appC6 "cid-6" ["bob"] "hi").2.2.bmailRecords "me").length = 1 := by
  refine ⟨rfl, by decide, rfl, rfl⟩

/-- C6 amended: `send_bmail` performs no comparison between the resolved DID
set and the stored participant set — whenever every other step succeeds, the
record is published even when the resolved set differs from the stored
participants. -/
theorem send_bmail_publishes_despite_mismatch
    (w : World) (app : AppState) (conversation_id : String) (recipients : List String)
    (msg : String) (user_did : String) (ds : List String) (record : BmailMessageRecord)
    (conv : Conversation)
    (hdid : app.user_did = some user_did)
    (hres : resolveList w.resolve recipients = .ok ds)
    (_hconv : lookupA app.conversations conversation_id = some conv)
    (_hmismatch : sortStrings ds ≠ conv.participants)
    (hrec : into_bmail_record w
      { created_at := w.now, creator := user_did, conversation_id := conversation_id,
        message := msg, recipients := sortStrings ds, version := 0,
        creator_handle := app.handle } = .ok record) :
    ((send_bmail w app conversation_id recipients msg).2.2).bmailRecords app.handle =
      w.bmailRecords app.handle ++ [record] := by
  rw [send_bmail, hdid]
  dsimp only
  rw [hres]
  dsimp only
  rw [hrec]
  dsimp only
  rcases hn : notify_recipients (publishBmailRecord w app.handle record)
      conversation_id recipients with ⟨r, w2⟩
  have hrecs : w2.bmailRecords = (publishBmailRecord w app.handle record).bmailRecords := by
    have h2 := notifyGo_bmailRecords conversation_id recipients
      (publishBmailRecord w app.handle record) recipients
    have h3 : (notify_recipients (publishBmailRecord w app.handle record)
        conversation_id recipients).2 = w2 := by
      rw [hn]
    rw [notify_recipients] at h3
    rw [h3] at h2
    exact h2
  cases r with
  | error e =>
    dsimp only
    rw [hrecs, publishBmailRecord]
    dsimp only
    rw [if_pos rfl]
  | ok u =>
    dsimp only
    rw [hrecs, publishBmailRecord]
    dsimp only
    rw [if_pos rfl]

/-- Witness for the amended C6 statement at the concrete mismatch
scenario. -/
theorem send_bmail_publishes_despite_mismatch_witness :
    ((send_bmail worldC6 appC6 "cid-6" ["bob"] "hi").2.2).bmailRecords "me" =
      worldC6.bmailRecords "me" ++ [recordC6] :=
  send_bmail_publishes_despite_mismatch worldC6 appC6 "cid-6" ["bob"] "hi"
    "did:me" ["did:bob"] recordC6 convC6 rfl rfl rfl (by decide) rfl

theorem collectRecipientKeys_missing (w : World) :
    ∀ l : List String, (∀ d ∈ l, (w.profiles d).isSome = true) →
      (∃ d ∈ l, ∃ p, w.profiles d = some p ∧ p.bmail_pub_key = none) →
      ∃ r, (∃ p, w.profiles r = some p ∧ p.bmail_pub_key = none) ∧ r ∈ l ∧
        collectRecipientKeys w l = .error (.missingRecipient r) := by
  intro l
  induction l with
  | nil =>
    intro _ hex
    rcases hex with ⟨d, hd, _⟩
    cases hd
  | cons x rest ih =>
    intro hprof hex
    cases hx : w.profiles x with
    | none =>
      have := hprof x (List.mem_cons_self x rest)
      rw [hx] at this
      cases this
    | some p =>
      cases hk : p.bmail_pub_key with
      | none =>
        refine ⟨x, ⟨p, hx, hk⟩, List.mem_cons_self x rest, ?_⟩
        rw [collectRecipientKeys, get_recipient_for_bskyer, hx]
        dsimp only
        rw [hk]
      | some key =>
        have hex2 : ∃ d ∈ rest, ∃ p2, w.profiles d = some p2 ∧ p2.bmail_pub_key = none := by
          rcases hex with ⟨d, hd, p2, hp2, hk2⟩
          rcases List.mem_cons.mp hd with hdx | hdr
          · subst hdx
            rw [hx] at hp2
            injection hp2 with hp2
            subst hp2
            rw [hk] at hk2
            cases hk2
          · exact ⟨d, hdr, p2, hp2, hk2⟩
        obtain ⟨r, hr1, hr2, hr3⟩ :=
          ih (fun d hd => hprof d (List.mem_cons_of_mem x hd)) hex2
        refine ⟨r, hr1, List.mem_cons_of_mem x hr2, ?_⟩
        rw [collectRecipientKeys, get_recipient_for_bskyer, hx]
        dsimp only
        rw [hk]
        dsimp only
        rw [hr3]

/-- C7: when some recipient's profile advertises no `bmail_pub_key` (and all
recipient profiles are fetchable), `send_bmail` fails with the
missing-recipient error naming a keyless recipient, and it does so before any
record is published — the app state and the world are returned completely
unchanged. -/
theorem send_bmail_missing_key_fails_before_publish
    (w : World) (app : AppState) (conversation_id : String) (recipients : List String)
    (msg : String) (user_did : String) (ds : List String)
    (hdid : app.user_did = some user_did)
    (hres : resolveList w.resolve recipients = .ok ds)
    (hprof : ∀ d ∈ sortStrings ds, (w.profiles d).isSome = true)
    (hmiss : ∃ d ∈ sortStrings ds, ∃ p, w.profiles d = some p ∧ p.bmail_pub_key = none) :
    ∃ r ∈ sortStrings ds, (∃ p, w.profiles r = some p ∧ p.bmail_pub_key = none) ∧
      send_bmail w app conversation_id recipients msg =
        (.err (.missingRecipient r), app, w) := by
  obtain ⟨r, hr1, hr2, hcol⟩ := collectRecipientKeys_missing w (sortStrings ds) hprof hmiss
  refine ⟨r, hr2, hr1, ?_⟩
  rw [send_bmail, hdid]
  dsimp only
  rw [hres]
  dsimp only
  rw [into_bmail_record]
  dsimp only
  rw [hcol]

/-- Witness for C7: sending to carol, whose profile has no advertised
key. -/
theorem send_bmail_missing_key_fails_before_publish_witness :
    ∃ r ∈ sortStrings ["did:carol"],
      (∃ p, worldC7.profiles r = some p ∧ p.bmail_pub_key = none) ∧
      send_bmail worldC7 appC7 "cid-7" ["carol"] "hi" =
        (.err (.missingRecipient r), appC7, worldC7) :=
  send_bmail_missing_key_fails_before_publish worldC7 appC7 "cid-7" ["carol"] "hi"
    "did:me" ["did:carol"] rfl rfl (by decide)
    ⟨"did:carol", by decide, profileC7carol, rfl, rfl⟩

/-- C8 counterexample: with two recipients where the first one's profile
lacks the sentinel-post content id, the notification failure makes
`send_bmail` return an error, the remaining recipient is not notified (no
like record is created at all), while the message record has already been
published. -/
theorem notify_failure_fails_send_counterexample :
    (send_bmail worldC8 appC8 "cid-8" ["bob", "carol"] "yo").1 = .err .malformedBmail ∧
    ((send_bmail worldC8 appC8 "cid-8" ["bob", "carol"] "yo").2.2).likes = [] ∧
    (((send_bmail worldC8 appC8 "cid-8" ["bob", "carol"] "yo").2.2).bmailRecords "me").length
      = 1 := by
  refine ⟨rfl, rfl, rfl⟩

/-- C8 amended: an error while notifying a recipient aborts the remaining
notifications and propagates out of `send_bmail` — yet the message record has
already been published and remains in the own repo; the failure is not
downgraded to a warning. -/
theorem notify_error_propagates_after_publish
    (w : World) (app : AppState) (conversation_id : String) (recipients : List String)
    (msg : String) (user_did : String) (ds : List String) (record : BmailMessageRecord)
    (e : BmailError) (w2 : World)
    (hdid : app.user_did = some user_did)
    (hres : resolveList w.resolve recipients = .ok ds)
    (hrec : into_bmail_record w
      { created_at := w.now, creator := user_did, conversation_id := conversation_id,
        message := msg, recipients := sortStrings ds, version := 0,
        creator_handle := app.handle } = .ok record)
    (hnotify : notify_recipients (publishBmailRecord w app.handle record)
      conversation_id recipients = (.error e, w2)) :
    (send_bmail w app conversation_id recipients msg).1 = .err e ∧
    (send_bmail w app conversation_id recipients msg).2.2 = w2 ∧
    w2.bmailRecords app.handle = w.bmailRecords app.handle ++ [record] := by
  have hrecs : w2.bmailRecords = (publishBmailRecord w app.handle record).bmailRecords := by
    have h2 := notifyGo_bmailRecords conversation_id recipients
      (publishBmailRecord w app.handle record) recipients
    have h3 : (notify_recipients (publishBmailRecord w app.handle record)
        conversation_id recipients).2 = w2 := by
      rw [hnotify]
    rw [notify_recipients] at h3
    rw [h3] at h2
    exact h2
  refine ⟨?_, ?_, ?_⟩
  · rw [send_bmail, hdid]
    dsimp only
    rw [hres]
    dsimp only
    rw [hrec]
    dsimp only
    rw [hnotify]
  · rw [send_bmail, hdid]
    dsimp only
    rw [hres]
    dsimp only
    rw [hrec]
    dsimp only
    rw [hnotify]
  · rw [hrecs, publishBmailRecord]
    dsimp only
    rw [if_pos rfl]

/-- Witness for the amended C8 statement at the concrete failing-notification
scenario. -/
theorem notify_error_propagates_after_publish_witness :
    (send_bmail worldC8 appC8 "cid-8" ["bob", "carol"] "yo").1 = .err .malformedBmail ∧
    (send_bmail worldC8 appC8 "cid-8" ["bob", "carol"] "yo").2.2 =
      (notify_recipients (publishBmailRecord worldC8 "me" recordC8) "cid-8"
        ["bob", "carol"]).2 ∧
    ((notify_recipients (publishBmailRecord worldC8 "me" recordC8) "cid-8"
        ["bob", "carol"]).2).bmailRecords "me" = worldC8.bmailRecords "me" ++ [recordC8] :=
  notify_error_propagates_after_publish worldC8 appC8 "cid-8" ["bob", "carol"] "yo"
    "did:me" ["did:bob", "did:carol"] recordC8 .malformedBmail
    (notify_recipients (publishBmailRecord worldC8 "me" recordC8) "cid-8"
      ["bob", "carol"]).2
    rfl rfl rfl rfl

